import Mathlib

/-!
Verification development for the ShootingStar email-to-task pipeline.

The definitions below are a shallow embedding of the repository's core:
the label taxonomy (`src/lib/labels/types.ts`), the label normalizer and
validators (`src/lib/labels/validator.ts`), the SQLite-backed dedup ledger
(`src/lib/db/client.ts`, `src/lib/db/schema.ts`), the extraction gateway
(`claude-cli.service.ts`), the processing pipeline
(`src/lib/services/processor.service.ts`) and the background worker's own
cycle (`worker` module).  External services (Gmail, Todoist, the Claude CLI
subprocess) are modelled by per-item behaviour oracles: a record saying, for
each item, what the external call would return or throw.  JavaScript
exceptions are modelled by threading the state together with an optional
thrown message, so side effects performed before a throw persist.
-/

namespace ShootingStar

/-! ## Label taxonomy (`src/lib/labels/types.ts`) -/

inductive LabelCategory where
  | duration
  | context
  | theme
  | horizon
  | performance
deriving DecidableEq, Repr

structure LabelInfo where
  id : String
  name : String
  emoji : String
  category : LabelCategory
deriving DecidableEq, Repr

/-- The closed registry of the 31 approved labels (`LABEL_REGISTRY`). -/
def LABEL_REGISTRY : List LabelInfo := [
  -- Duration labels (4)
  ⟨"2170911418", "5 min", "⏱", LabelCategory.duration⟩,
  ⟨"2170911443", "15 min", "⌚", LabelCategory.duration⟩,
  ⟨"2170911462", "30 min", "⏰", LabelCategory.duration⟩,
  ⟨"2170911483", "1 hr", "⏳", LabelCategory.duration⟩,
  -- Context labels (17)
  ⟨"2170910796", "Computer", "💻", LabelCategory.context⟩,
  ⟨"2171144986", "Calls", "📞", LabelCategory.context⟩,
  ⟨"2171144969", "Errands", "🏃", LabelCategory.context⟩,
  ⟨"2170910787", "Mobile", "📱", LabelCategory.context⟩,
  ⟨"2170867398", "Home", "🏡", LabelCategory.context⟩,
  ⟨"2175329080", "Amazon", "📦", LabelCategory.context⟩,
  ⟨"2174409639", "ChatGPT", "🤖", LabelCategory.context⟩,
  ⟨"2170910997", "SHD", "🏦", LabelCategory.context⟩,
  ⟨"2174556945", "Workshop", "🪚", LabelCategory.context⟩,
  ⟨"2170911275", "Low energy", "😴", LabelCategory.context⟩,
  ⟨"2170867369", "Fun Depot", "🛠", LabelCategory.context⟩,
  ⟨"2170911059", "FLUP", "📅", LabelCategory.context⟩,
  ⟨"2171145727", "Accountant", "🔢", LabelCategory.context⟩,
  ⟨"2171145711", "Brittany", "👰", LabelCategory.context⟩,
  ⟨"2175489111", "Youtube", "▶️", LabelCategory.context⟩,
  ⟨"2179977775", "Amy", "🐅", LabelCategory.context⟩,
  ⟨"2168964591", "Next Action", "✅", LabelCategory.context⟩,
  -- Theme labels (5)
  ⟨"2170793536", "Challenge", "🏋️", LabelCategory.theme⟩,
  ⟨"2170793538", "Care", "🧘‍♂️", LabelCategory.theme⟩,
  ⟨"2170793551", "Wealth", "💰", LabelCategory.theme⟩,
  ⟨"2170793566", "Joy", "🥳", LabelCategory.theme⟩,
  ⟨"2170793532", "Lead", "🤝", LabelCategory.theme⟩,
  -- Horizon labels (3)
  ⟨"2174349262", "Vision [3-5y]", "🚀", LabelCategory.horizon⟩,
  ⟨"2174349277", "Goals [1-2y]", "🎯", LabelCategory.horizon⟩,
  ⟨"2174556383", "Milestones", "🗿", LabelCategory.horizon⟩,
  -- Performance labels (2)
  ⟨"2174846814", "Above Average", "💪🏼", LabelCategory.performance⟩,
  ⟨"2174846815", "World Class", "🌎", LabelCategory.performance⟩]

/-- `isApprovedLabel` (`labelId in LABEL_REGISTRY`). -/
def isApprovedLabel (labelId : String) : Bool :=
  LABEL_REGISTRY.any (fun l => l.id == labelId)

/-- `getLabelInfo` (`LABEL_REGISTRY[labelId]`, `undefined` when absent). -/
def getLabelInfo (labelId : String) : Option LabelInfo :=
  LABEL_REGISTRY.find? (fun l => l.id == labelId)

/-- `getLabelsByCategory`. -/
def getLabelsByCategory (category : LabelCategory) : List LabelInfo :=
  LABEL_REGISTRY.filter (fun l => decide (l.category = category))

/-- The optional-chaining test `getLabelInfo(id)?.category === category`
(`undefined === category` is `false`). -/
def labelCategoryIs (labelId : String) (category : LabelCategory) : Bool :=
  match getLabelInfo labelId with
  | some l => decide (l.category = category)
  | none => false

/-- The optional-chaining test `getLabelInfo(id)?.category !== category`
(`undefined !== category` is `true`). -/
def labelCategoryIsNot (labelId : String) (category : LabelCategory) : Bool :=
  match getLabelInfo labelId with
  | some l => decide (l.category ≠ category)
  | none => true

/-! ## Validator (`src/lib/labels/validator.ts`) -/

structure ValidationResult where
  valid : Bool
  errors : List String
  warnings : Option (List String)
deriving DecidableEq, Repr

/-- First-occurrence deduplication, the behaviour of `[...new Set(xs)]`
(JavaScript `Set` iteration preserves insertion order: keep each element's
first occurrence, drop every later one). -/
def dedupFirst : List String → List String
  | [] => []
  | x :: xs => x :: (dedupFirst xs).filter (fun y => !(y == x))

/-- `validateLabels`: every id must be an approved label; duplicates only warn. -/
def validateLabels (labels : List String) : ValidationResult :=
  let errors := labels.filterMap (fun labelId =>
    if isApprovedLabel labelId then none
    else some ("Invalid label ID: " ++ labelId ++ " - not in approved list"))
  let warnings :=
    if (dedupFirst labels).length ≠ labels.length then ["Duplicate labels detected"] else []
  { valid := errors.length == 0
    errors := errors
    warnings := if warnings.length > 0 then some warnings else none }

/-- `validateDuration`: exactly one duration label must be present. -/
def validateDuration (labels : List String) : ValidationResult :=
  let durationIds := (getLabelsByCategory LabelCategory.duration).map (fun l => l.id)
  let durationCount := (labels.filter (fun labelId => durationIds.contains labelId)).length
  let errors :=
    if durationCount = 0 then
      ["Missing duration label - exactly one is required"]
    else if durationCount > 1 then
      ["Too many duration labels (" ++ toString durationCount ++ ") - exactly one is required"]
    else []
  { valid := errors.length == 0
    errors := errors
    warnings := none }

/-- `normalizeLabels`: filter to approved ids, deduplicate, force exactly one
duration label (default `"2170911443"`, 15 min) and at least one context label
(default `"2170910796"`, Computer). -/
def normalizeLabels (labelIds : List String) : List String :=
  let normalized := labelIds.filter isApprovedLabel
  let normalized := dedupFirst normalized
  let durationLabels :=
    normalized.filter (fun labelId => labelCategoryIs labelId LabelCategory.duration)
  let normalized :=
    if durationLabels.length = 0 then
      normalized ++ ["2170911443"]
    else if durationLabels.length > 1 then
      let firstDuration := durationLabels.headD ""
      normalized.filter (fun labelId =>
        labelCategoryIsNot labelId LabelCategory.duration || labelId == firstDuration)
    else normalized
  let contextLabels :=
    normalized.filter (fun labelId => labelCategoryIs labelId LabelCategory.context)
  if contextLabels.length = 0 then normalized ++ ["2170910796"] else normalized

/-- `isValidLabelSet`. -/
def isValidLabelSet (labels : List String) : Bool :=
  (validateLabels labels).valid && (validateDuration labels).valid

/-! ## Lemmas about the normalizer -/

theorem mem_dedupFirst (a : String) (xs : List String) : a ∈ dedupFirst xs ↔ a ∈ xs := by
  induction xs with
  | nil => simp [dedupFirst]
  | cons x xs ih =>
    rw [dedupFirst]
    simp only [List.mem_cons, List.mem_filter, ih, Bool.not_eq_true', beq_eq_false_iff_ne]
    constructor
    · rintro (rfl | ⟨h, _⟩)
      · exact Or.inl rfl
      · exact Or.inr h
    · rintro (rfl | h)
      · exact Or.inl rfl
      · by_cases hax : a = x
        · exact Or.inl hax
        · exact Or.inr ⟨h, hax⟩

theorem nodup_dedupFirst (xs : List String) : (dedupFirst xs).Nodup := by
  induction xs with
  | nil => simp [dedupFirst]
  | cons x xs ih =>
    rw [dedupFirst, List.nodup_cons]
    refine ⟨?_, List.Nodup.filter _ ih⟩
    intro hmem
    have := (List.mem_filter.mp hmem).2
    simp at this

/-- The duration-repair stage of `normalizeLabels`, split out for the proofs. -/
def durationStep (normalized : List String) : List String :=
  let durationLabels :=
    normalized.filter (fun labelId => labelCategoryIs labelId LabelCategory.duration)
  if durationLabels.length = 0 then
    normalized ++ ["2170911443"]
  else if durationLabels.length > 1 then
    let firstDuration := durationLabels.headD ""
    normalized.filter (fun labelId =>
      labelCategoryIsNot labelId LabelCategory.duration || labelId == firstDuration)
  else normalized

/-- The context-repair stage of `normalizeLabels`, split out for the proofs. -/
def contextStep (normalized : List String) : List String :=
  let contextLabels :=
    normalized.filter (fun labelId => labelCategoryIs labelId LabelCategory.context)
  if contextLabels.length = 0 then normalized ++ ["2170910796"] else normalized

theorem normalizeLabels_eq_steps (xs : List String) :
    normalizeLabels xs = contextStep (durationStep (dedupFirst (xs.filter isApprovedLabel))) :=
  rfl

theorem labelCategoryIsNot_eq (labelId : String) (category : LabelCategory) :
    labelCategoryIsNot labelId category = !(labelCategoryIs labelId category) := by
  unfold labelCategoryIs labelCategoryIsNot
  cases getLabelInfo labelId with
  | none => rfl
  | some l => simp [decide_not]

theorem durationStep_approved (b : List String)
    (h : ∀ labelId ∈ b, isApprovedLabel labelId = true) :
    ∀ labelId ∈ durationStep b, isApprovedLabel labelId = true := by
  intro labelId hid
  simp only [durationStep] at hid
  split at hid
  · rcases List.mem_append.mp hid with h1 | h1
    · exact h _ h1
    · simp only [List.mem_singleton] at h1
      subst h1; decide
  · split at hid
    · exact h _ (List.mem_filter.mp hid).1
    · exact h _ hid

theorem durationStep_nodup (b : List String) (hN : b.Nodup) : (durationStep b).Nodup := by
  simp only [durationStep]
  split
  · rename_i h0
    rw [List.nodup_append]
    refine ⟨hN, List.nodup_singleton _, ?_⟩
    intro a ha hmem
    simp only [List.mem_singleton] at hmem
    subst hmem
    have := List.filter_eq_nil.mp (List.length_eq_zero.mp h0) _ ha
    exact this (by decide)
  · split
    · exact List.Nodup.filter _ hN
    · exact hN

theorem headD_mem_of_ne_nil {A : Type} (l : List A) (d : A) (h : l ≠ []) : l.headD d ∈ l := by
  cases l with
  | nil => exact absurd rfl h
  | cons a as => exact List.mem_cons_self _ _

theorem durationStep_count (b : List String) (hN : b.Nodup) :
    ((durationStep b).filter
      (fun labelId => labelCategoryIs labelId LabelCategory.duration)).length = 1 := by
  simp only [durationStep]
  split
  · rename_i h0
    rw [List.filter_append, List.length_eq_zero.mp h0]
    decide
  · split
    · rename_i h0 h1
      have hDne :
          b.filter (fun labelId => labelCategoryIs labelId LabelCategory.duration) ≠ [] := by
        intro hnil
        exact h0 (by rw [hnil]; rfl)
      have hd0 := headD_mem_of_ne_nil _ "" hDne
      have hd0b := List.mem_filter.mp hd0
      rw [List.filter_filter]
      rw [List.filter_congr
        (q := fun x =>
          x == (b.filter (fun labelId =>
            labelCategoryIs labelId LabelCategory.duration)).headD "") ?_]
      · rw [← List.countP_eq_length_filter]
        show List.count
          ((b.filter (fun labelId =>
            labelCategoryIs labelId LabelCategory.duration)).headD "") b = 1
        exact List.count_eq_one_of_mem hN hd0b.1
      · intro x hx
        show (labelCategoryIs x LabelCategory.duration &&
            (labelCategoryIsNot x LabelCategory.duration ||
              x == (b.filter (fun labelId =>
                labelCategoryIs labelId LabelCategory.duration)).headD ""))
          = (x == (b.filter (fun labelId =>
              labelCategoryIs labelId LabelCategory.duration)).headD "")
        by_cases hxd :
            (x == (b.filter (fun labelId =>
              labelCategoryIs labelId LabelCategory.duration)).headD "") = true
        · have hxe := eq_of_beq hxd
          rw [labelCategoryIsNot_eq, hxd, hxe, hd0b.2]
          rfl
        · simp only [Bool.not_eq_true] at hxd
          rw [labelCategoryIsNot_eq, hxd]
          cases hcat : labelCategoryIs x LabelCategory.duration <;> rfl
    · rename_i h0 h1
      omega

theorem contextStep_approved (b : List String)
    (h : ∀ labelId ∈ b, isApprovedLabel labelId = true) :
    ∀ labelId ∈ contextStep b, isApprovedLabel labelId = true := by
  intro labelId hid
  simp only [contextStep] at hid
  split at hid
  · rcases List.mem_append.mp hid with h1 | h1
    · exact h _ h1
    · simp only [List.mem_singleton] at h1
      subst h1; decide
  · exact h _ hid

theorem contextStep_nodup (b : List String) (hN : b.Nodup) : (contextStep b).Nodup := by
  simp only [contextStep]
  split
  · rename_i h0
    rw [List.nodup_append]
    refine ⟨hN, List.nodup_singleton _, ?_⟩
    intro a ha hmem
    simp only [List.mem_singleton] at hmem
    subst hmem
    have := List.filter_eq_nil.mp (List.length_eq_zero.mp h0) _ ha
    exact this (by decide)
  · exact hN

theorem contextStep_duration_count (b : List String) :
    ((contextStep b).filter
        (fun labelId => labelCategoryIs labelId LabelCategory.duration)).length
      = (b.filter (fun labelId => labelCategoryIs labelId LabelCategory.duration)).length := by
  simp only [contextStep]
  split
  · rw [List.filter_append]
    have h796 : List.filter (fun labelId => labelCategoryIs labelId LabelCategory.duration)
        ["2170910796"] = [] := by decide
    rw [h796, List.append_nil]
  · rfl

theorem contextStep_context_count (b : List String) :
    1 ≤ ((contextStep b).filter
        (fun labelId => labelCategoryIs labelId LabelCategory.context)).length := by
  simp only [contextStep]
  split
  · rename_i h0
    rw [List.filter_append, List.length_eq_zero.mp h0]
    decide
  · rename_i h0
    omega

/-- Shared workhorse: the four taxonomy-validity properties of `normalizeLabels`. -/
theorem normalizeLabels_spec (xs : List String) :
    (∀ labelId ∈ normalizeLabels xs, isApprovedLabel labelId = true) ∧
    (normalizeLabels xs).Nodup ∧
    ((normalizeLabels xs).filter
      (fun labelId => labelCategoryIs labelId LabelCategory.duration)).length = 1 ∧
    1 ≤ ((normalizeLabels xs).filter
      (fun labelId => labelCategoryIs labelId LabelCategory.context)).length := by
  rw [normalizeLabels_eq_steps]
  set b := dedupFirst (xs.filter isApprovedLabel) with hb
  have hApp : ∀ labelId ∈ b, isApprovedLabel labelId = true := by
    intro labelId hid
    rw [hb, mem_dedupFirst] at hid
    exact (List.mem_filter.mp hid).2
  have hNd : b.Nodup := hb ▸ nodup_dedupFirst _
  refine ⟨contextStep_approved _ (durationStep_approved _ hApp), ?_, ?_, ?_⟩
  · exact contextStep_nodup _ (durationStep_nodup _ hNd)
  · rw [contextStep_duration_count]
    exact durationStep_count _ hNd
  · exact contextStep_context_count _

/-- For approved ids, membership in the duration-id list used by
`validateDuration` agrees with the category test used by `normalizeLabels`. -/
theorem contains_durationIds_eq (x : String) (h : isApprovedLabel x = true) :
    (((getLabelsByCategory LabelCategory.duration).map (fun l => l.id)).contains x)
      = labelCategoryIs x LabelCategory.duration := by
  have hx : x ∈ LABEL_REGISTRY.map (fun l => l.id) := by
    unfold isApprovedLabel at h
    rw [List.any_eq_true] at h
    obtain ⟨l, hl, hbe⟩ := h
    exact List.mem_map.mpr ⟨l, hl, eq_of_beq hbe⟩
  simp only [LABEL_REGISTRY, List.map] at hx
  fin_cases hx <;> decide

/-- C1: `normalizeLabels` is total and always returns a taxonomy-valid sequence:
every returned id is a member of the label registry, no id occurs twice, exactly
one id has category Duration, and at least one id has category Context. -/
theorem normalizeLabels_taxonomy_valid (xs : List String) :
    (normalizeLabels xs).all isApprovedLabel = true ∧
    (normalizeLabels xs).Nodup ∧
    ((normalizeLabels xs).filter
      (fun labelId => labelCategoryIs labelId LabelCategory.duration)).length = 1 ∧
    1 ≤ ((normalizeLabels xs).filter
      (fun labelId => labelCategoryIs labelId LabelCategory.context)).length := by
  obtain ⟨hApp, hNd, hDur, hCtx⟩ := normalizeLabels_spec xs
  exact ⟨List.all_eq_true.mpr hApp, hNd, hDur, hCtx⟩

/-- C10: normalization composed with validation always succeeds:
`isValidLabelSet (normalizeLabels xs) = true` for every input sequence. -/
theorem isValidLabelSet_normalizeLabels (xs : List String) :
    isValidLabelSet (normalizeLabels xs) = true := by
  obtain ⟨hApp, hNd, hDur, hCtx⟩ := normalizeLabels_spec xs
  unfold isValidLabelSet
  rw [Bool.and_eq_true]
  constructor
  · have herr : (normalizeLabels xs).filterMap (fun labelId =>
        if isApprovedLabel labelId then none
        else some ("Invalid label ID: " ++ labelId ++ " - not in approved list")) = [] := by
      rw [List.filterMap_eq_nil_iff]
      intro a ha
      rw [hApp a ha]
      rfl
    simp [validateLabels, herr]
  · have hcount : ((normalizeLabels xs).filter (fun labelId =>
        (((getLabelsByCategory LabelCategory.duration).map (fun l => l.id)).contains
          labelId))).length = 1 := by
      rw [List.filter_congr (fun x hx => contains_durationIds_eq x (hApp x hx))]
      exact hDur
    unfold validateDuration
    simp only [hcount]
    rfl

/-! ## Data model: rows of the SQLite tables (`src/lib/db/schema.ts`) -/

structure ProcessedEmailRow where
  gmail_id : String
  thread_id : Option String
  sender : Option String
  subject : Option String
  task_title : Option String
  todoist_task_id : Option String
  labels : Option (List String)
  processing_mode : String
deriving DecidableEq, Repr

structure PendingReviewRow where
  id : Nat
  gmail_id : String
  thread_id : Option String
  sender : Option String
  subject : Option String
  body : Option String
  gmail_link : Option String
  status : String
deriving DecidableEq, Repr

structure ErrorLogRow where
  error_type : String
  message : String
  email_id : Option String
deriving DecidableEq, Repr

/-- A task as submitted to the external tracker (`todoist.createTask` request). -/
structure CreatedTask where
  id : String
  content : String
  description : String
  labels : List String
  dueString : Option String
deriving DecidableEq, Repr

/-- The whole observable system state: the four durable record sets plus the
external tracker's append-only task list (so a created task that is never
rolled back stays visible). -/
structure SysState where
  automationState : List (String × String)
  processedEmails : List ProcessedEmailRow
  errorLog : List ErrorLogRow
  pendingReviews : List PendingReviewRow
  nextPendingId : Nat
  createdTasks : List CreatedTask
deriving DecidableEq, Repr

/-- `initializeDatabase`: empty tables, default automation state `running=false`
(`schema.ts` inserts the default only on first startup). -/
def initialState : SysState :=
  { automationState := [("running", "false")]
    processedEmails := []
    errorLog := []
    pendingReviews := []
    nextPendingId := 1
    createdTasks := [] }

/-! ## Dedup ledger operations (`src/lib/db/client.ts`) -/

def getAutomationState (s : SysState) (key : String) : Option String :=
  (s.automationState.find? (fun kv => kv.1 == key)).map (fun kv => kv.2)

/-- `INSERT OR REPLACE INTO automation_state`. -/
def setAutomationState (s : SysState) (key value : String) : SysState :=
  { s with automationState :=
      (s.automationState.filter (fun kv => !(kv.1 == key))) ++ [(key, value)] }

def setLastRunTime (s : SysState) (time : String) : SysState :=
  setAutomationState s "last_run" time

def isEmailProcessed (s : SysState) (gmailId : String) : Bool :=
  s.processedEmails.any (fun r => r.gmail_id == gmailId)

def isPendingReview (s : SysState) (gmailId : String) : Bool :=
  s.pendingReviews.any (fun r => r.gmail_id == gmailId && r.status == "pending")

/-- Whether any `pending_reviews` row (any status) exists for this gmail id;
this is what the `UNIQUE` constraint on `gmail_id` checks. -/
def pendingRowExists (s : SysState) (gmailId : String) : Bool :=
  s.pendingReviews.any (fun r => r.gmail_id == gmailId)

/-- Plain `INSERT INTO processed_emails`: the `UNIQUE` constraint on `gmail_id`
makes a duplicate insert throw. -/
def addProcessedEmail (s : SysState) (row : ProcessedEmailRow) : Except String SysState :=
  if isEmailProcessed s row.gmail_id then
    Except.error "UNIQUE constraint failed: processed_emails.gmail_id"
  else
    Except.ok { s with processedEmails := s.processedEmails ++ [row] }

def addErrorLog (s : SysState) (e : ErrorLogRow) : SysState :=
  { s with errorLog := s.errorLog ++ [e] }

/-- The insert payload of `addPendingReview`. -/
structure PendingReviewData where
  gmail_id : String
  thread_id : Option String
  sender : Option String
  subject : Option String
  body : Option String
  gmail_link : Option String
deriving DecidableEq, Repr

/-- `INSERT OR IGNORE INTO pending_reviews`: a second insert for the same
`gmail_id` is a silent no-op; new rows get the autoincrement id and the
default status `"pending"`. -/
def addPendingReview (s : SysState) (d : PendingReviewData) : SysState :=
  if pendingRowExists s d.gmail_id then s
  else
    { s with
      pendingReviews := s.pendingReviews ++
        [{ id := s.nextPendingId
           gmail_id := d.gmail_id
           thread_id := d.thread_id
           sender := d.sender
           subject := d.subject
           body := d.body
           gmail_link := d.gmail_link
           status := "pending" }]
      nextPendingId := s.nextPendingId + 1 }

def updatePendingReviewStatus (s : SysState) (id : Nat) (status : String) : SysState :=
  { s with pendingReviews := s.pendingReviews.map (fun r =>
      if r.id == id then { r with status := status } else r) }

def getPendingReviewById (s : SysState) (id : Nat) : Option PendingReviewRow :=
  s.pendingReviews.find? (fun r => r.id == id)

/-! ## Extraction gateway (`claude-cli.service.ts`) -/

/-- Process environment relevant to the gateway. -/
structure EnvModel where
  anthropicApiKeyPresent : Bool
  claudeAuthenticated : Bool
deriving DecidableEq, Repr

/-- The message of the error thrown by `validateEnvironment`. -/
def anthropicKeyErrorMsg : String :=
  "ANTHROPIC_API_KEY detected! This app uses Claude CLI, not the API. " ++
    "Remove ANTHROPIC_API_KEY from environment to continue."

structure TaskExtraction where
  task : String
  labels : List String
  notes : Option String
  dueString : Option String
deriving DecidableEq, Repr

/-- What the `claude -p` subprocess call plus JSON unwrapping yields for one
item: a parsed structured object, a parse failure, or an exec failure
(timeout or other). -/
inductive CliOutcome where
  | parsed (t : TaskExtraction)
  | parseFailure (msg : String)
  | execFailure (timedOut : Bool) (msg : String)
deriving DecidableEq, Repr

structure ClaudeCliResult where
  success : Bool
  data : Option TaskExtraction
  error : Option String
  fallbackRequired : Bool
deriving DecidableEq, Repr

/-- `extractTaskFromEmail`: validate the environment (throws when
`ANTHROPIC_API_KEY` is present), check CLI authentication, then classify the
CLI call's outcome; invalid labels are filtered and an empty survivor set is
salvaged with the default Duration and Context ids. -/
def extractTaskFromEmail (env : EnvModel) (cli : CliOutcome) : Except String ClaudeCliResult :=
  if env.anthropicApiKeyPresent then
    Except.error anthropicKeyErrorMsg
  else if !env.claudeAuthenticated then
    Except.ok
      { success := false
        data := none
        error := some "Claude CLI not authenticated. Run \"claude /login\" on the host machine."
        fallbackRequired := true }
  else
    match cli with
    | CliOutcome.parseFailure msg =>
      Except.ok
        { success := false
          data := none
          error := some ("Failed to parse Claude response: " ++ msg)
          fallbackRequired := true }
    | CliOutcome.execFailure timedOut msg =>
      Except.ok
        { success := false
          data := none
          error := some (if timedOut then "Claude CLI timed out" else msg)
          fallbackRequired := true }
    | CliOutcome.parsed parsed =>
      if parsed.task = "" then
        Except.ok
          { success := false
            data := none
            error := some "Claude response missing required fields (task, labels)"
            fallbackRequired := true }
      else
        let validLabels := parsed.labels.filter isApprovedLabel
        let validLabels :=
          if validLabels.length = 0 then ["2170911443", "2170910796"] else validLabels
        Except.ok
          { success := true
            data := some
              { task := parsed.task
                labels := validLabels
                notes := parsed.notes
                dueString := parsed.dueString }
            error := none
            fallbackRequired := false }

/-! ## Todoist service (`todoist.service.ts`) -/

/-- `getLabelNames`: translate registry ids to the `"name emoji"` display
strings; unknown ids are silently skipped. -/
def getLabelNames (labelIds : List String) : List String :=
  labelIds.filterMap (fun labelId =>
    (getLabelInfo labelId).map (fun info => info.name ++ " " ++ info.emoji))

/-! ## Processing pipeline (`processor.service.ts`) -/

structure GmailEmail where
  id : String
  threadId : String
  sender : String
  subject : String
  body : String
deriving DecidableEq, Repr

/-- Per-item responses of the external services, the oracle a cycle runs
against: the CLI call outcome, whether `todoist.createTask` throws (and the id
it returns when it succeeds), and whether the two Gmail mark-handled calls
throw. -/
structure ItemBehavior where
  cli : CliOutcome
  createTaskErr : Option String
  createdTaskId : String
  labelEmailErr : Option String
  unstarEmailErr : Option String
deriving DecidableEq, Repr

def gmailLink (threadId : String) : String :=
  "https://mail.google.com/mail/u/0/#inbox/" ++ threadId

/-- `processEmail`: extract, enqueue a pending review on a non-success result,
otherwise normalize labels, create the Todoist task, mark the email handled in
Gmail, and record the ProcessedRecord.  The returned `Option String` is the
message of a thrown exception (state mutations made before the throw persist,
as with real exceptions). -/
def processEmail (env : EnvModel) (beh : String → ItemBehavior) (s : SysState)
    (email : GmailEmail) : SysState × Option String :=
  let link := gmailLink email.threadId
  match extractTaskFromEmail env (beh email.id).cli with
  | Except.error msg => (s, some msg)
  | Except.ok cliResult =>
    if !cliResult.success then
      (addPendingReview s
        { gmail_id := email.id
          thread_id := some email.threadId
          sender := some email.sender
          subject := some email.subject
          body := some email.body
          gmail_link := some link }, none)
    else
      match cliResult.data with
      | none => (s, some "TypeError: cliResult.data is undefined")
      | some data =>
        let normalizedLabels := normalizeLabels data.labels
        let description := String.intercalate "\n"
          ["From: " ++ email.sender,
           "Subject: " ++ email.subject,
           "",
           data.notes.getD "",
           "",
           "Original email: " ++ link]
        match (beh email.id).createTaskErr with
        | some msg => (s, some msg)
        | none =>
          let task : CreatedTask :=
            { id := (beh email.id).createdTaskId
              content := data.task
              description := description
              labels := getLabelNames normalizedLabels
              dueString := data.dueString }
          let s1 := { s with createdTasks := s.createdTasks ++ [task] }
          match (beh email.id).labelEmailErr with
          | some msg => (s1, some msg)
          | none =>
            match (beh email.id).unstarEmailErr with
            | some msg => (s1, some msg)
            | none =>
              match addProcessedEmail s1
                  { gmail_id := email.id
                    thread_id := some email.threadId
                    sender := some email.sender
                    subject := some email.subject
                    task_title := some data.task
                    todoist_task_id := some (beh email.id).createdTaskId
                    labels := some normalizedLabels
                    processing_mode := "auto" } with
              | Except.ok s2 => (s2, none)
              | Except.error msg => (s1, some msg)

structure ProcessingResult where
  processed : Nat
  errors : Nat
  pendingReviews : Nat
  authRequired : Bool
  authUrl : Option String
deriving DecidableEq, Repr

/-- Outcome of `gmail.getStarredEmails()` for one cycle. -/
inductive FetchOutcome where
  | ok (emails : List GmailEmail)
  | authError (authUrl : String)
  | fetchError (msg : String)
deriving DecidableEq, Repr

/-- The per-item loop of `processStarredEmails`: skip items already processed
or pending review; count a normal return of `processEmail` as processed and a
thrown exception as a logged `PROCESSING_ERROR`. -/
def runEmailLoop (env : EnvModel) (beh : String → ItemBehavior) :
    SysState → ProcessingResult → List GmailEmail → SysState × ProcessingResult
  | s, r, [] => (s, r)
  | s, r, email :: rest =>
    if isEmailProcessed s email.id then runEmailLoop env beh s r rest
    else if isPendingReview s email.id then runEmailLoop env beh s r rest
    else
      match processEmail env beh s email with
      | (s1, none) =>
        runEmailLoop env beh s1 { r with processed := r.processed + 1 } rest
      | (s1, some msg) =>
        let s2 := addErrorLog s1
          { error_type := "PROCESSING_ERROR", message := msg, email_id := some email.id }
        runEmailLoop env beh s2 { r with errors := r.errors + 1 } rest

/-- `ProcessorService.processStarredEmails`: record the run time, validate the
environment (logging one `ENV_ERROR` and rethrowing on failure), fetch starred
emails (an auth failure returns `authRequired`, any other fetch failure
rethrows), then run the per-item loop.  `Except.error` models the call
throwing. -/
def processStarredEmails (env : EnvModel) (beh : String → ItemBehavior) (now : String)
    (fetch : FetchOutcome) (s : SysState) : SysState × Except String ProcessingResult :=
  let result0 : ProcessingResult :=
    { processed := 0, errors := 0, pendingReviews := 0, authRequired := false, authUrl := none }
  let s := setLastRunTime s now
  if env.anthropicApiKeyPresent then
    (addErrorLog s { error_type := "ENV_ERROR", message := anthropicKeyErrorMsg, email_id := none },
      Except.error anthropicKeyErrorMsg)
  else
    match fetch with
    | FetchOutcome.authError url =>
      (s, Except.ok { result0 with authRequired := true, authUrl := some url })
    | FetchOutcome.fetchError msg => (s, Except.error msg)
    | FetchOutcome.ok emails =>
      let run := runEmailLoop env beh s result0 emails
      (run.1, Except.ok run.2)

/-! ## Manual completion and skip (`processor.service.ts`) -/

structure ManualTaskData where
  task : String
  labels : List String
  notes : Option String
  dueString : Option String
deriving DecidableEq, Repr

/-- External-service responses for one manual completion. -/
structure ManualBehavior where
  createTaskErr : Option String
  createdTaskId : String
deriving DecidableEq, Repr

structure ManualResult where
  success : Bool
  taskId : Option String
  error : Option String
deriving DecidableEq, Repr

/-- JavaScript template-literal rendering of a possibly-`null` DB column
(`null` prints as the string `"null"`). -/
def jsTemplate (o : Option String) : String :=
  match o with
  | some v => v
  | none => "null"

/-- `processManualTask`: look up the pending review, create the Todoist task,
best-effort Gmail mark-handled (failures swallowed), set the review status to
`completed`, then record the ProcessedRecord; any throw inside the `try` is
logged as `MANUAL_PROCESSING_ERROR` and returned as a failure. -/
def processManualTask (mb : ManualBehavior) (s : SysState) (pendingReviewId : Nat)
    (taskData : ManualTaskData) : SysState × ManualResult :=
  match getPendingReviewById s pendingReviewId with
  | none => (s, { success := false, taskId := none, error := some "Pending review not found" })
  | some pending =>
    let normalizedLabels := normalizeLabels taskData.labels
    let description := String.intercalate "\n"
      ["From: " ++ jsTemplate pending.sender,
       "Subject: " ++ jsTemplate pending.subject,
       "",
       taskData.notes.getD "",
       "",
       "Original email: " ++ jsTemplate pending.gmail_link]
    match mb.createTaskErr with
    | some msg =>
      (addErrorLog s
        { error_type := "MANUAL_PROCESSING_ERROR", message := msg,
          email_id := some pending.gmail_id },
        { success := false, taskId := none, error := some msg })
    | none =>
      let task : CreatedTask :=
        { id := mb.createdTaskId
          content := taskData.task
          description := description
          labels := getLabelNames normalizedLabels
          dueString := taskData.dueString }
      let s1 := { s with createdTasks := s.createdTasks ++ [task] }
      -- The Gmail labelEmail/unstarEmail calls are wrapped in their own
      -- try/catch whose handler only logs to the console, so they have no
      -- effect on the modelled state.
      let s2 := updatePendingReviewStatus s1 pendingReviewId "completed"
      match addProcessedEmail s2
          { gmail_id := pending.gmail_id
            thread_id := pending.thread_id
            sender := pending.sender
            subject := pending.subject
            task_title := some taskData.task
            todoist_task_id := some mb.createdTaskId
            labels := some normalizedLabels
            processing_mode := "manual" } with
      | Except.ok s3 => (s3, { success := true, taskId := some mb.createdTaskId, error := none })
      | Except.error msg =>
        (addErrorLog s2
          { error_type := "MANUAL_PROCESSING_ERROR", message := msg,
            email_id := some pending.gmail_id },
          { success := false, taskId := none, error := some msg })

def skipPendingReview (s : SysState) (pendingReviewId : Nat) : SysState :=
  updatePendingReviewStatus s pendingReviewId "skipped"

/-! ## Background worker cycle (worker module) -/

/-- The per-item `try` body of the worker's loop: same pipeline as
`processEmail`, but every thrown error is caught here and logged as a
`PROCESSING_ERROR`, and the fallback test is
`!cliResult.success || cliResult.fallbackRequired`. -/
def workerProcessEmail (env : EnvModel) (beh : String → ItemBehavior) (s : SysState)
    (email : GmailEmail) : SysState :=
  let link := gmailLink email.threadId
  match extractTaskFromEmail env (beh email.id).cli with
  | Except.error msg =>
    addErrorLog s { error_type := "PROCESSING_ERROR", message := msg, email_id := some email.id }
  | Except.ok cliResult =>
    if !cliResult.success || cliResult.fallbackRequired then
      addPendingReview s
        { gmail_id := email.id
          thread_id := some email.threadId
          sender := some email.sender
          subject := some email.subject
          body := some email.body
          gmail_link := some link }
    else
      match cliResult.data with
      | none =>
        addErrorLog s
          { error_type := "PROCESSING_ERROR",
            message := "TypeError: cliResult.data is undefined", email_id := some email.id }
      | some data =>
        let normalizedLabels := normalizeLabels data.labels
        let description := String.intercalate "\n"
          ["From: " ++ email.sender,
           "Subject: " ++ email.subject,
           "",
           data.notes.getD "",
           "",
           "Original email: " ++ link]
        match (beh email.id).createTaskErr with
        | some msg =>
          addErrorLog s
            { error_type := "PROCESSING_ERROR", message := msg, email_id := some email.id }
        | none =>
          let task : CreatedTask :=
            { id := (beh email.id).createdTaskId
              content := data.task
              description := description
              labels := getLabelNames normalizedLabels
              dueString := data.dueString }
          let s1 := { s with createdTasks := s.createdTasks ++ [task] }
          match (beh email.id).labelEmailErr with
          | some msg =>
            addErrorLog s1
              { error_type := "PROCESSING_ERROR", message := msg, email_id := some email.id }
          | none =>
            match (beh email.id).unstarEmailErr with
            | some msg =>
              addErrorLog s1
                { error_type := "PROCESSING_ERROR", message := msg, email_id := some email.id }
            | none =>
              match addProcessedEmail s1
                  { gmail_id := email.id
                    thread_id := some email.threadId
                    sender := some email.sender
                    subject := some email.subject
                    task_title := some data.task
                    todoist_task_id := some (beh email.id).createdTaskId
                    labels := some normalizedLabels
                    processing_mode := "auto" } with
              | Except.ok s2 => s2
              | Except.error msg =>
                addErrorLog s1
                  { error_type := "PROCESSING_ERROR", message := msg,
                    email_id := some email.id }

def workerRunEmailLoop (env : EnvModel) (beh : String → ItemBehavior) :
    SysState → List GmailEmail → SysState
  | s, [] => s
  | s, email :: rest =>
    if isEmailProcessed s email.id then workerRunEmailLoop env beh s rest
    else if isPendingReview s email.id then workerRunEmailLoop env beh s rest
    else workerRunEmailLoop env beh (workerProcessEmail env beh s email) rest

/-- The worker's `processStarredEmails`: record the run time, then return
immediately when the persisted `running` flag is not `"true"`; otherwise fetch
(an auth failure only warns, any other fetch failure is caught by the outer
handler as a `CYCLE_ERROR`) and run the item loop. -/
def workerCycle (env : EnvModel) (beh : String → ItemBehavior) (now : String)
    (fetch : FetchOutcome) (s : SysState) : SysState :=
  let s := setAutomationState s "last_run" now
  if !(getAutomationState s "running" == some "true") then s
  else
    match fetch with
    | FetchOutcome.authError _ => s
    | FetchOutcome.fetchError msg =>
      addErrorLog s { error_type := "CYCLE_ERROR", message := msg, email_id := none }
    | FetchOutcome.ok emails => workerRunEmailLoop env beh s emails

/-- The worker's startup `setTimeout` handler: it invokes the cycle once,
unconditionally — any gating on the `running` flag happens inside the cycle
itself. -/
def startupInitialCycle (env : EnvModel) (beh : String → ItemBehavior) (now : String)
    (fetch : FetchOutcome) (s : SysState) : SysState :=
  workerCycle env beh now fetch s

/-! ## Concrete fixtures used by witnesses and counterexamples -/

def emailA : GmailEmail :=
  { id := "a1", threadId := "t1", sender := "gov@example.com",
    subject := "Renew passport", body := "due Friday" }

def extractionA : TaskExtraction :=
  { task := "Renew passport before trip", labels := ["2171144969"],
    notes := none, dueString := some "Friday" }

def behSuccess : ItemBehavior :=
  { cli := CliOutcome.parsed extractionA, createTaskErr := none, createdTaskId := "T1",
    labelEmailErr := none, unstarEmailErr := none }

def behMarkFail : ItemBehavior :=
  { cli := CliOutcome.parsed extractionA, createTaskErr := none, createdTaskId := "T1",
    labelEmailErr := some "Gmail API error", unstarEmailErr := none }

def envOk : EnvModel := { anthropicApiKeyPresent := false, claudeAuthenticated := true }

def envBad : EnvModel := { anthropicApiKeyPresent := true, claudeAuthenticated := true }

def reviewRowW : PendingReviewRow :=
  { id := 1, gmail_id := "g1", thread_id := none, sender := some "gov@example.com",
    subject := some "Renew passport", body := none, gmail_link := some "https://g/1",
    status := "completed" }

def stateW : SysState :=
  { initialState with pendingReviews := [reviewRowW], nextPendingId := 2 }

def dataW : PendingReviewData :=
  { gmail_id := "g1", thread_id := none, sender := some "gov@example.com",
    subject := some "Renew passport", body := some "b", gmail_link := some "https://g/1" }

/-! ## C7: insert-if-absent semantics of `addPendingReview` -/

theorem addPendingReview_noop (s : SysState) (d : PendingReviewData)
    (h : pendingRowExists s d.gmail_id = true) : addPendingReview s d = s := by
  unfold addPendingReview
  rw [if_pos h]

theorem pendingRowExists_after_add (s : SysState) (d : PendingReviewData) :
    pendingRowExists (addPendingReview s d) d.gmail_id = true := by
  unfold addPendingReview
  split
  · rename_i h
    exact h
  · unfold pendingRowExists
    rw [List.any_append]
    simp

/-- C7: a second `addPendingReview` call for the same gmail id is a silent
no-op: whenever any row for that id already exists (whatever its status), the
call returns the state unchanged; in particular calling it twice with the same
payload equals calling it once. -/
theorem addPendingReview_insert_if_absent (s : SysState) (d : PendingReviewData) :
    addPendingReview (addPendingReview s d) d = addPendingReview s d ∧
    (pendingRowExists s d.gmail_id = true → addPendingReview s d = s) := by
  constructor
  · exact addPendingReview_noop _ _ (pendingRowExists_after_add s d)
  · exact addPendingReview_noop s d

/-- Witness for C7 at a concrete state holding a non-pending (completed) row. -/
theorem addPendingReview_insert_if_absent_witness :
    pendingRowExists stateW dataW.gmail_id = true ∧ addPendingReview stateW dataW = stateW :=
  ⟨by decide, (addPendingReview_insert_if_absent stateW dataW).2 (by decide)⟩

/-! ## C2: a fatal environment condition aborts the whole cycle -/

/-- C2: when the prohibited `ANTHROPIC_API_KEY` credential is present, the
processing cycle aborts immediately: the call throws (the `aborted` outcome),
exactly one `ENV_ERROR` record is logged, and no ProcessedRecord, PendingReview
or tracker task is created for any item — in particular for no item after any
position k in the batch. -/
theorem fatal_env_aborts_cycle (env : EnvModel) (beh : String → ItemBehavior)
    (now : String) (fetch : FetchOutcome) (s : SysState)
    (h : env.anthropicApiKeyPresent = true) :
    (processStarredEmails env beh now fetch s).2 = Except.error anthropicKeyErrorMsg ∧
    (processStarredEmails env beh now fetch s).1.errorLog = s.errorLog ++
      [{ error_type := "ENV_ERROR", message := anthropicKeyErrorMsg, email_id := none }] ∧
    (processStarredEmails env beh now fetch s).1.processedEmails = s.processedEmails ∧
    (processStarredEmails env beh now fetch s).1.pendingReviews = s.pendingReviews ∧
    (processStarredEmails env beh now fetch s).1.createdTasks = s.createdTasks := by
  unfold processStarredEmails
  rw [h]
  simp [setLastRunTime, setAutomationState, addErrorLog]

/-- Witness for C2: a two-item batch where the key is present. -/
theorem fatal_env_aborts_cycle_witness :
    envBad.anthropicApiKeyPresent = true ∧
    ((processStarredEmails envBad (fun _ => behSuccess) "t0"
        (FetchOutcome.ok [emailA, { emailA with id := "a2" }]) initialState).2 =
      Except.error anthropicKeyErrorMsg ∧
     (processStarredEmails envBad (fun _ => behSuccess) "t0"
        (FetchOutcome.ok [emailA, { emailA with id := "a2" }]) initialState).1.errorLog =
      initialState.errorLog ++
        [{ error_type := "ENV_ERROR", message := anthropicKeyErrorMsg, email_id := none }] ∧
     (processStarredEmails envBad (fun _ => behSuccess) "t0"
        (FetchOutcome.ok [emailA, { emailA with id := "a2" }]) initialState).1.processedEmails =
      initialState.processedEmails ∧
     (processStarredEmails envBad (fun _ => behSuccess) "t0"
        (FetchOutcome.ok [emailA, { emailA with id := "a2" }]) initialState).1.pendingReviews =
      initialState.pendingReviews ∧
     (processStarredEmails envBad (fun _ => behSuccess) "t0"
        (FetchOutcome.ok [emailA, { emailA with id := "a2" }]) initialState).1.createdTasks =
      initialState.createdTasks) :=
  ⟨rfl, fatal_env_aborts_cycle envBad (fun _ => behSuccess) "t0"
    (FetchOutcome.ok [emailA, { emailA with id := "a2" }]) initialState rfl⟩

/-! ## Helper lemmas for the success path of the pipeline -/

/-- The label-salvage transform of the gateway's success branch. -/
def salvagedLabels (labels : List String) : List String :=
  let validLabels := labels.filter isApprovedLabel
  if validLabels.length = 0 then ["2170911443", "2170910796"] else validLabels

theorem extract_success (env : EnvModel) (t : TaskExtraction)
    (henv : env.anthropicApiKeyPresent = false) (hauth : env.claudeAuthenticated = true)
    (htask : t.task ≠ "") :
    extractTaskFromEmail env (CliOutcome.parsed t) = Except.ok
      { success := true
        data := some
          { task := t.task, labels := salvagedLabels t.labels,
            notes := t.notes, dueString := t.dueString }
        error := none
        fallbackRequired := false } := by
  unfold extractTaskFromEmail
  rw [henv, hauth]
  simp [htask, salvagedLabels]

/-- The tracker request `processEmail` submits on its success path. -/
def autoTask (beh : String → ItemBehavior) (email : GmailEmail) (t : TaskExtraction) :
    CreatedTask :=
  { id := (beh email.id).createdTaskId
    content := t.task
    description := String.intercalate "\n"
      ["From: " ++ email.sender, "Subject: " ++ email.subject, "",
       t.notes.getD "", "", "Original email: " ++ gmailLink email.threadId]
    labels := getLabelNames (normalizeLabels (salvagedLabels t.labels))
    dueString := t.dueString }

theorem addProcessedEmail_ok_createdTasks (s : SysState) (row : ProcessedEmailRow)
    (s2 : SysState) (h : addProcessedEmail s row = Except.ok s2) :
    s2.createdTasks = s.createdTasks := by
  unfold addProcessedEmail at h
  split at h
  · exact absurd h (by simp)
  · injection h with h2
    subst h2
    rfl

theorem processEmail_success_createdTasks (env : EnvModel) (beh : String → ItemBehavior)
    (s : SysState) (email : GmailEmail) (t : TaskExtraction)
    (henv : env.anthropicApiKeyPresent = false) (hauth : env.claudeAuthenticated = true)
    (hcli : (beh email.id).cli = CliOutcome.parsed t) (htask : t.task ≠ "")
    (hcreate : (beh email.id).createTaskErr = none) :
    (processEmail env beh s email).1.createdTasks = s.createdTasks ++ [autoTask beh email t] := by
  unfold processEmail
  rw [hcli, extract_success env t henv hauth htask, hcreate]
  simp only [autoTask, Bool.not_true, Bool.false_eq_true, if_false]
  split
  · rfl
  · split
    · rfl
    · split
      · rename_i s2 heq
        exact addProcessedEmail_ok_createdTasks _ _ _ heq
      · rfl

theorem workerProcessEmail_success_createdTasks (env : EnvModel) (beh : String → ItemBehavior)
    (s : SysState) (email : GmailEmail) (t : TaskExtraction)
    (henv : env.anthropicApiKeyPresent = false) (hauth : env.claudeAuthenticated = true)
    (hcli : (beh email.id).cli = CliOutcome.parsed t) (htask : t.task ≠ "")
    (hcreate : (beh email.id).createTaskErr = none) :
    (workerProcessEmail env beh s email).createdTasks = s.createdTasks ++ [autoTask beh email t] := by
  unfold workerProcessEmail
  rw [hcli, extract_success env t henv hauth htask, hcreate]
  simp only [autoTask, Bool.not_true, Bool.false_eq_true, if_false, Bool.false_or]
  split
  · rfl
  · split
    · rfl
    · split
      · rename_i s2 heq
        exact addProcessedEmail_ok_createdTasks _ _ _ heq
      · rfl

/-- The tracker request `processManualTask` submits. -/
def manualTask (mb : ManualBehavior) (td : ManualTaskData) (pending : PendingReviewRow) :
    CreatedTask :=
  { id := mb.createdTaskId
    content := td.task
    description := String.intercalate "\n"
      ["From: " ++ jsTemplate pending.sender, "Subject: " ++ jsTemplate pending.subject, "",
       td.notes.getD "", "", "Original email: " ++ jsTemplate pending.gmail_link]
    labels := getLabelNames (normalizeLabels td.labels)
    dueString := td.dueString }

theorem processManualTask_createdTasks (mb : ManualBehavior) (s : SysState) (rid : Nat)
    (td : ManualTaskData) (pending : PendingReviewRow)
    (hget : getPendingReviewById s rid = some pending) (hcreate : mb.createTaskErr = none) :
    (processManualTask mb s rid td).1.createdTasks =
      s.createdTasks ++ [manualTask mb td pending] := by
  unfold processManualTask
  rw [hget, hcreate]
  simp only [manualTask]
  split
  · rename_i s3 heq
    have h3 := addProcessedEmail_ok_createdTasks _ _ _ heq
    simpa [updatePendingReviewStatus] using h3
  · rfl

theorem intercalate_six (a b c d e f : String) :
    String.intercalate "\n" [a, b, c, d, e, f] =
      a ++ "\n" ++ b ++ "\n" ++ c ++ "\n" ++ d ++ "\n" ++ e ++ "\n" ++ f := by
  simp [String.intercalate, String.intercalate.go]

/-! ## C9: exact description composition -/

/-- C9: for every committed item — automatic pipeline, worker pipeline, or
manual completion — the task description submitted to the tracker is exactly
the six lines `From: {sender}`, `Subject: {subject}`, empty, notes-or-empty,
empty, `Original email: {link}`, joined by single newlines, in that order. -/
theorem task_description_composition :
    (∀ (env : EnvModel) (beh : String → ItemBehavior) (s : SysState) (email : GmailEmail)
      (t : TaskExtraction),
      env.anthropicApiKeyPresent = false → env.claudeAuthenticated = true →
      (beh email.id).cli = CliOutcome.parsed t → t.task ≠ "" →
      (beh email.id).createTaskErr = none →
      ∃ task : CreatedTask,
        (processEmail env beh s email).1.createdTasks = s.createdTasks ++ [task] ∧
        task.description = "From: " ++ email.sender ++ "\n" ++ ("Subject: " ++ email.subject)
          ++ "\n" ++ "" ++ "\n" ++ t.notes.getD "" ++ "\n" ++ "" ++ "\n"
          ++ ("Original email: " ++ gmailLink email.threadId)) ∧
    (∀ (mb : ManualBehavior) (s : SysState) (rid : Nat) (td : ManualTaskData)
      (pending : PendingReviewRow),
      getPendingReviewById s rid = some pending → mb.createTaskErr = none →
      ∃ task : CreatedTask,
        (processManualTask mb s rid td).1.createdTasks = s.createdTasks ++ [task] ∧
        task.description = "From: " ++ jsTemplate pending.sender ++ "\n"
          ++ ("Subject: " ++ jsTemplate pending.subject)
          ++ "\n" ++ "" ++ "\n" ++ td.notes.getD "" ++ "\n" ++ "" ++ "\n"
          ++ ("Original email: " ++ jsTemplate pending.gmail_link)) ∧
    (∀ (env : EnvModel) (beh : String → ItemBehavior) (s : SysState) (email : GmailEmail)
      (t : TaskExtraction),
      env.anthropicApiKeyPresent = false → env.claudeAuthenticated = true →
      (beh email.id).cli = CliOutcome.parsed t → t.task ≠ "" →
      (beh email.id).createTaskErr = none →
      ∃ task : CreatedTask,
        (workerProcessEmail env beh s email).createdTasks = s.createdTasks ++ [task] ∧
        task.description = "From: " ++ email.sender ++ "\n" ++ ("Subject: " ++ email.subject)
          ++ "\n" ++ "" ++ "\n" ++ t.notes.getD "" ++ "\n" ++ "" ++ "\n"
          ++ ("Original email: " ++ gmailLink email.threadId)) := by
  refine ⟨?_, ?_, ?_⟩
  · intro env beh s email t henv hauth hcli htask hcreate
    exact ⟨autoTask beh email t,
      processEmail_success_createdTasks env beh s email t henv hauth hcli htask hcreate,
      intercalate_six _ _ _ _ _ _⟩
  · intro mb s rid td pending hget hcreate
    exact ⟨manualTask mb td pending,
      processManualTask_createdTasks mb s rid td pending hget hcreate,
      intercalate_six _ _ _ _ _ _⟩
  · intro env beh s email t henv hauth hcli htask hcreate
    exact ⟨autoTask beh email t,
      workerProcessEmail_success_createdTasks env beh s email t henv hauth hcli htask hcreate,
      intercalate_six _ _ _ _ _ _⟩

/-- Witness for C9: the automatic path at a concrete email and extraction. -/
theorem task_description_composition_witness :
    envOk.anthropicApiKeyPresent = false ∧
    (∃ task : CreatedTask,
      (processEmail envOk (fun _ => behSuccess) initialState emailA).1.createdTasks =
        initialState.createdTasks ++ [task] ∧
      task.description = "From: " ++ emailA.sender ++ "\n" ++ ("Subject: " ++ emailA.subject)
        ++ "\n" ++ "" ++ "\n" ++ extractionA.notes.getD "" ++ "\n" ++ "" ++ "\n"
        ++ ("Original email: " ++ gmailLink emailA.threadId)) :=
  ⟨rfl, task_description_composition.1 envOk (fun _ => behSuccess) initialState emailA
    extractionA rfl rfl rfl (by decide) rfl⟩

/-- Decidable equality for `Except`, used to evaluate concrete cycle results. -/
instance exceptDecEq {E A : Type} [DecidableEq E] [DecidableEq A] :
    DecidableEq (Except E A) := fun x y =>
  match x, y with
  | Except.ok a, Except.ok b =>
    if h : a = b then isTrue (by rw [h])
    else isFalse (fun hc => h (by injection hc))
  | Except.error a, Except.error b =>
    if h : a = b then isTrue (by rw [h])
    else isFalse (fun hc => h (by injection hc))
  | Except.ok a, Except.error b => isFalse (fun hc => by injection hc)
  | Except.error a, Except.ok b => isFalse (fun hc => by injection hc)

/-! ## C3: mark-handled failure after successful task creation (automatic path) -/

/-- Counterexample to C3 as stated: one item, extraction succeeds, the tracker
task is created, then `labelEmail` fails.  The task exists (not rolled back),
but contrary to the claim the failure is not merely logged: no ProcessedRecord
is written for the item, and the cycle counts it as an error. -/
theorem mark_handled_failure_counterexample :
    (processStarredEmails envOk (fun _ => behMarkFail) "t0"
        (FetchOutcome.ok [emailA]) initialState).1.createdTasks.length = 1 ∧
    (processStarredEmails envOk (fun _ => behMarkFail) "t0"
        (FetchOutcome.ok [emailA]) initialState).1.processedEmails = [] ∧
    (processStarredEmails envOk (fun _ => behMarkFail) "t0"
        (FetchOutcome.ok [emailA]) initialState).1.errorLog =
      [{ error_type := "PROCESSING_ERROR", message := "Gmail API error",
         email_id := some "a1" }] ∧
    (processStarredEmails envOk (fun _ => behMarkFail) "t0"
        (FetchOutcome.ok [emailA]) initialState).2 =
      Except.ok { processed := 0, errors := 1, pendingReviews := 0,
                  authRequired := false, authUrl := none } := by
  decide

/-- C3 (amended): in the automatic pipeline, when task creation succeeds and a
mark-handled side effect (`labelEmail`, or `unstarEmail` after a successful
`labelEmail`) fails, the created task is not rolled back, but the failure is
not merely logged: it propagates as a thrown per-item error, so no
ProcessedRecord is written for the item (the state changes only by the
appended tracker task) and the item stays eligible for retry. -/
theorem mark_handled_failure_amended (env : EnvModel) (beh : String → ItemBehavior)
    (s : SysState) (email : GmailEmail) (t : TaskExtraction)
    (henv : env.anthropicApiKeyPresent = false) (hauth : env.claudeAuthenticated = true)
    (hcli : (beh email.id).cli = CliOutcome.parsed t) (htask : t.task ≠ "")
    (hcreate : (beh email.id).createTaskErr = none)
    (hmark : (beh email.id).labelEmailErr ≠ none ∨
      ((beh email.id).labelEmailErr = none ∧ (beh email.id).unstarEmailErr ≠ none)) :
    ∃ msg, processEmail env beh s email =
      ({ s with createdTasks := s.createdTasks ++ [autoTask beh email t] }, some msg) := by
  unfold processEmail
  rw [hcli, extract_success env t henv hauth htask, hcreate]
  simp only [autoTask, Bool.not_true, Bool.false_eq_true, if_false]
  rcases hmark with hl | ⟨hl, hu⟩
  · obtain ⟨m, hm⟩ := Option.ne_none_iff_exists'.mp hl
    rw [hm]
    exact ⟨m, rfl⟩
  · obtain ⟨m, hm⟩ := Option.ne_none_iff_exists'.mp hu
    rw [hl, hm]
    exact ⟨m, rfl⟩

/-- Witness for the amended C3 at a concrete input. -/
theorem mark_handled_failure_amended_witness :
    ∃ msg, processEmail envOk (fun _ => behMarkFail) initialState emailA =
      ({ initialState with createdTasks :=
          initialState.createdTasks ++ [autoTask (fun _ => behMarkFail) emailA extractionA] },
        some msg) :=
  mark_handled_failure_amended envOk (fun _ => behMarkFail) initialState emailA extractionA
    rfl rfl rfl (by decide) rfl (Or.inl (by decide))

/-! ## C8: the bootstrap cycle and the persisted `running` flag -/

/-- Counterexample to C8 as stated: from the first-startup default state
(`running='false'`) with one fresh, fully-processable starred email, the
startup bootstrap invocation of the cycle does not perform any
fetch-and-process work — it only records the run time. -/
theorem startup_bootstrap_counterexample :
    (startupInitialCycle envOk (fun _ => behSuccess) "t0"
        (FetchOutcome.ok [emailA]) initialState).processedEmails = [] ∧
    (startupInitialCycle envOk (fun _ => behSuccess) "t0"
        (FetchOutcome.ok [emailA]) initialState).pendingReviews = [] ∧
    (startupInitialCycle envOk (fun _ => behSuccess) "t0"
        (FetchOutcome.ok [emailA]) initialState) =
      setAutomationState initialState "last_run" "t0" := by
  decide

theorem find?_key_filter_append (l : List (String × String)) (k other v : String)
    (hne : k ≠ other) :
    ((l.filter (fun kv => !(kv.1 == other))) ++ [(other, v)]).find?
        (fun kv => kv.1 == k) =
      l.find? (fun kv => kv.1 == k) := by
  induction l with
  | nil =>
    have hk : ¬(((other, v) : String × String).1 == k) = true := by
      rw [beq_iff_eq]
      intro hh
      exact hne hh.symm
    show List.find? (fun kv => kv.1 == k) [(other, v)] = none
    rw [@List.find?_cons_of_neg (String × String) (fun kv => kv.1 == k) (other, v) [] hk]
    rfl
  | cons kv rest ih =>
    by_cases h1 : kv.1 = other
    · rw [List.filter_cons]
      have hb : (!(kv.1 == other)) = false := by simp [h1]
      rw [hb]
      simp only [Bool.false_eq_true, if_false]
      rw [ih]
      have hk : ¬(kv.1 == k) = true := by
        rw [beq_iff_eq, h1]
        exact fun hh => hne hh.symm
      rw [@List.find?_cons_of_neg (String × String) (fun kv => kv.1 == k) kv rest hk]
    · rw [List.filter_cons]
      have hb : (!(kv.1 == other)) = true := by simp [h1]
      rw [hb]
      simp only [if_true]
      rw [List.cons_append]
      cases hk : (kv.1 == k) with
      | true =>
        rw [@List.find?_cons_of_pos (String × String) (fun kv => kv.1 == k) kv
              (List.filter (fun kv => !(kv.1 == other)) rest ++ [(other, v)]) hk,
            @List.find?_cons_of_pos (String × String) (fun kv => kv.1 == k) kv rest hk]
      | false =>
        have hk2 : ¬(kv.1 == k) = true := by rw [hk]; exact fun hc => by cases hc
        rw [@List.find?_cons_of_neg (String × String) (fun kv => kv.1 == k) kv
              (List.filter (fun kv => !(kv.1 == other)) rest ++ [(other, v)]) hk2,
            @List.find?_cons_of_neg (String × String) (fun kv => kv.1 == k) kv rest hk2]
        exact ih

theorem getAutomationState_set_other (s : SysState) (k other v : String) (hne : k ≠ other) :
    getAutomationState (setAutomationState s other v) k = getAutomationState s k := by
  unfold getAutomationState setAutomationState
  rw [find?_key_filter_append s.automationState k other v hne]

/-- C8 (amended): on startup the worker invokes one processing cycle after the
warm-up delay without consulting the `running` flag first, but the cycle itself
checks the persisted flag right after recording the run time: whenever the
persisted value is not `"true"` (in particular the first-startup default
`"false"`), the bootstrap cycle returns having only recorded `last_run` — it
fetches nothing and creates no records. -/
theorem startup_bootstrap_amended (env : EnvModel) (beh : String → ItemBehavior)
    (now : String) (fetch : FetchOutcome) (s : SysState)
    (h : getAutomationState s "running" ≠ some "true") :
    startupInitialCycle env beh now fetch s = setAutomationState s "last_run" now := by
  have hb : (getAutomationState s "running" == some "true") = false := by
    rw [beq_eq_false_iff_ne]
    exact h
  unfold startupInitialCycle workerCycle
  simp only [getAutomationState_set_other s "running" "last_run" now (by decide), hb,
    Bool.not_false, if_true]

/-- Witness for the amended C8 at the first-startup default state. -/
theorem startup_bootstrap_amended_witness :
    getAutomationState initialState "running" ≠ some "true" ∧
    startupInitialCycle envOk (fun _ => behSuccess) "t0"
        (FetchOutcome.ok [emailA]) initialState =
      setAutomationState initialState "last_run" "t0" :=
  ⟨by decide, startup_bootstrap_amended envOk (fun _ => behSuccess) "t0"
    (FetchOutcome.ok [emailA]) initialState (by decide)⟩

/-! ## Per-item step lemmas for the cycle loop -/

theorem addProcessedEmail_ok_eq (s : SysState) (row : ProcessedEmailRow) (s2 : SysState)
    (h : addProcessedEmail s row = Except.ok s2) :
    s2 = { s with processedEmails := s.processedEmails ++ [row] } := by
  unfold addProcessedEmail at h
  split at h
  · exact absurd h (by simp)
  · injection h with h2
    exact h2.symm

/-- The ProcessedRecord `processEmail` inserts on its success path. -/
def autoRow (beh : String → ItemBehavior) (email : GmailEmail) (t : TaskExtraction) :
    ProcessedEmailRow :=
  { gmail_id := email.id
    thread_id := some email.threadId
    sender := some email.sender
    subject := some email.subject
    task_title := some t.task
    todoist_task_id := some (beh email.id).createdTaskId
    labels := some (normalizeLabels (salvagedLabels t.labels))
    processing_mode := "auto" }

theorem processEmail_full_success (env : EnvModel) (beh : String → ItemBehavior)
    (s : SysState) (email : GmailEmail) (t : TaskExtraction)
    (henv : env.anthropicApiKeyPresent = false) (hauth : env.claudeAuthenticated = true)
    (hcli : (beh email.id).cli = CliOutcome.parsed t) (htask : t.task ≠ "")
    (hcreate : (beh email.id).createTaskErr = none)
    (hl : (beh email.id).labelEmailErr = none)
    (hu : (beh email.id).unstarEmailErr = none)
    (hfresh : isEmailProcessed s email.id = false) :
    processEmail env beh s email =
      ({ s with
          createdTasks := s.createdTasks ++ [autoTask beh email t]
          processedEmails := s.processedEmails ++ [autoRow beh email t] }, none) := by
  unfold processEmail
  rw [hcli, extract_success env t henv hauth htask, hcreate, hl, hu]
  simp only [Bool.not_true, Bool.false_eq_true, if_false]
  split
  · rename_i s2 heq
    have h2 := addProcessedEmail_ok_eq _ _ _ heq
    subst h2
    rfl
  · rename_i m heq
    unfold addProcessedEmail at heq
    split at heq
    · rename_i hcond
      have hc2 : isEmailProcessed s email.id = true := hcond
      rw [hfresh] at hc2
      cases hc2
    · cases heq

theorem processEmail_createTask_throws (env : EnvModel) (beh : String → ItemBehavior)
    (s : SysState) (email : GmailEmail) (t : TaskExtraction) (m : String)
    (henv : env.anthropicApiKeyPresent = false) (hauth : env.claudeAuthenticated = true)
    (hcli : (beh email.id).cli = CliOutcome.parsed t) (htask : t.task ≠ "")
    (hcreate : (beh email.id).createTaskErr = some m) :
    processEmail env beh s email = (s, some m) := by
  unfold processEmail
  rw [hcli, extract_success env t henv hauth htask, hcreate]
  simp only [Bool.not_true, Bool.false_eq_true, if_false]

theorem isEmailProcessed_update (s : SysState) (ct : List CreatedTask)
    (row : ProcessedEmailRow) (g : String) :
    isEmailProcessed
        { s with createdTasks := ct, processedEmails := s.processedEmails ++ [row] } g
      = (isEmailProcessed s g || (row.gmail_id == g)) := by
  unfold isEmailProcessed
  rw [List.any_append]
  simp

theorem length_filter_not_add {A : Type} (p : A → Bool) (l : List A) :
    (l.filter p).length + (l.filter (fun a => !p a)).length = l.length := by
  induction l with
  | nil => rfl
  | cons a l ih =>
    rw [List.filter_cons, List.filter_cons]
    cases hp : p a <;> simp [hp] <;> omega

theorem addPendingReview_processedEmails (s : SysState) (d : PendingReviewData) :
    (addPendingReview s d).processedEmails = s.processedEmails := by
  unfold addPendingReview
  split
  · rfl
  · rfl

/-- `processEmail` only ever appends to the processed-emails table. -/
theorem processEmail_processedEmails_shape (env : EnvModel) (beh : String → ItemBehavior)
    (s : SysState) (email : GmailEmail) :
    ∃ tail, (processEmail env beh s email).1.processedEmails = s.processedEmails ++ tail := by
  unfold processEmail
  split
  · exact ⟨[], by simp⟩
  · split
    · refine ⟨[], ?_⟩
      show (addPendingReview s _).processedEmails = _
      rw [addPendingReview_processedEmails]
      simp
    · split
      · exact ⟨[], by simp⟩
      · split
        · exact ⟨[], by simp⟩
        · split
          · exact ⟨[], by simp⟩
          · split
            · exact ⟨[], by simp⟩
            · dsimp only
              split
              · rename_i s2 heq
                have h2 := addProcessedEmail_ok_eq _ _ _ heq
                subst h2
                exact ⟨_, rfl⟩
              · exact ⟨[], by simp⟩

theorem isEmailProcessed_mono_processEmail (env : EnvModel) (beh : String → ItemBehavior)
    (s : SysState) (email : GmailEmail) (g : String) (h : isEmailProcessed s g = true) :
    isEmailProcessed (processEmail env beh s email).1 g = true := by
  obtain ⟨tail, htail⟩ := processEmail_processedEmails_shape env beh s email
  unfold isEmailProcessed at h ⊢
  rw [htail, List.any_append, h]
  rfl

theorem isEmailProcessed_mono_loop (env : EnvModel) (beh : String → ItemBehavior) :
    ∀ (l : List GmailEmail) (s : SysState) (r : ProcessingResult) (g : String),
    isEmailProcessed s g = true →
    isEmailProcessed (runEmailLoop env beh s r l).1 g = true := by
  intro l
  induction l with
  | nil => intro s r g hg; exact hg
  | cons x xs ihm =>
    intro s r g hg
    simp only [runEmailLoop]
    split
    · exact ihm _ _ _ hg
    · split
      · exact ihm _ _ _ hg
      · split
        · rename_i s1 heq
          apply ihm
          have hm := isEmailProcessed_mono_processEmail env beh s x g hg
          rw [heq] at hm
          exact hm
        · rename_i s1 m heq
          apply ihm
          have hm := isEmailProcessed_mono_processEmail env beh s x g hg
          rw [heq] at hm
          exact hm

/-- Loop induction for C5: ids are distinct and fresh; the item whose id is
`failId` has a deterministically failing commit, every other item fully
succeeds. -/
theorem runEmailLoop_mixed (env : EnvModel) (beh : String → ItemBehavior) (failId : String)
    (henv : env.anthropicApiKeyPresent = false) (hauth : env.claudeAuthenticated = true) :
    ∀ (emails : List GmailEmail) (s : SysState) (r : ProcessingResult),
    (emails.map GmailEmail.id).Nodup →
    (∀ e ∈ emails, isEmailProcessed s e.id = false ∧ isPendingReview s e.id = false) →
    (∀ e ∈ emails, e.id = failId →
      (∃ t, (beh e.id).cli = CliOutcome.parsed t ∧ t.task ≠ "") ∧
      (∃ m, (beh e.id).createTaskErr = some m)) →
    (∀ e ∈ emails, e.id ≠ failId →
      (∃ t, (beh e.id).cli = CliOutcome.parsed t ∧ t.task ≠ "") ∧
      (beh e.id).createTaskErr = none ∧ (beh e.id).labelEmailErr = none ∧
      (beh e.id).unstarEmailErr = none) →
    (runEmailLoop env beh s r emails).2.processed
        = r.processed + (emails.filter (fun e => !(e.id == failId))).length ∧
    (runEmailLoop env beh s r emails).2.errors
        = r.errors + (emails.filter (fun e => e.id == failId)).length ∧
    (∀ e ∈ emails, e.id ≠ failId →
      isEmailProcessed (runEmailLoop env beh s r emails).1 e.id = true) := by
  intro emails
  induction emails with
  | nil =>
    intro s r _ _ _ _
    refine ⟨rfl, rfl, ?_⟩
    intro e he
    cases he
  | cons e rest ih =>
    intro s r hnd hfresh hfail hok
    have hndTail : (rest.map GmailEmail.id).Nodup := by
      rw [List.map_cons, List.nodup_cons] at hnd
      exact hnd.2
    have hidTail : ∀ e2 ∈ rest, e2.id ≠ e.id := by
      rw [List.map_cons, List.nodup_cons] at hnd
      intro e2 he2 hc
      exact hnd.1 (hc ▸ List.mem_map_of_mem GmailEmail.id he2)
    have hf1 := (hfresh e (List.mem_cons_self e rest)).1
    have hf2 := (hfresh e (List.mem_cons_self e rest)).2
    simp only [runEmailLoop, hf1, hf2, Bool.false_eq_true, if_false]
    by_cases hfe : e.id = failId
    · obtain ⟨⟨t, hcli, htask⟩, ⟨m, hm⟩⟩ := hfail e (List.mem_cons_self e rest) hfe
      rw [processEmail_createTask_throws env beh s e t m henv hauth hcli htask hm]
      have hrest := ih (addErrorLog s
          { error_type := "PROCESSING_ERROR", message := m, email_id := some e.id })
        { r with errors := r.errors + 1 } hndTail
        (fun e2 he2 => (hfresh e2 (List.mem_cons_of_mem e he2)))
        (fun e2 he2 => hfail e2 (List.mem_cons_of_mem e he2))
        (fun e2 he2 => hok e2 (List.mem_cons_of_mem e he2))
      refine ⟨?_, ?_, ?_⟩
      · rw [hrest.1]
        rw [List.filter_cons]
        have : (!(e.id == failId)) = false := by simp [hfe]
        rw [this]
        simp
      · rw [hrest.2.1]
        rw [List.filter_cons]
        have : (e.id == failId) = true := by simp [hfe]
        rw [this]
        simp only [if_true, List.length_cons]
        omega
      · intro e2 he2 hne2
        rcases List.mem_cons.mp he2 with rfl | he2'
        · exact absurd hfe hne2
        · exact hrest.2.2 e2 he2' hne2
    · obtain ⟨⟨t, hcli, htask⟩, hcreate, hl, hu⟩ := hok e (List.mem_cons_self e rest) hfe
      rw [processEmail_full_success env beh s e t henv hauth hcli htask hcreate hl hu hf1]
      have hfreshTail : ∀ e2 ∈ rest,
          isEmailProcessed
              { s with
                createdTasks := s.createdTasks ++ [autoTask beh e t]
                processedEmails := s.processedEmails ++ [autoRow beh e t] } e2.id = false ∧
          isPendingReview
              { s with
                createdTasks := s.createdTasks ++ [autoTask beh e t]
                processedEmails := s.processedEmails ++ [autoRow beh e t] } e2.id = false := by
        intro e2 he2
        constructor
        · rw [isEmailProcessed_update]
          have h1 := (hfresh e2 (List.mem_cons_of_mem e he2)).1
          have h2 : ((autoRow beh e t).gmail_id == e2.id) = false := by
            rw [beq_eq_false_iff_ne]
            show e.id ≠ e2.id
            exact fun hc => hidTail e2 he2 hc.symm
          rw [h1, h2]
          rfl
        · exact (hfresh e2 (List.mem_cons_of_mem e he2)).2
      have hrest := ih
        { s with
          createdTasks := s.createdTasks ++ [autoTask beh e t]
          processedEmails := s.processedEmails ++ [autoRow beh e t] }
        { r with processed := r.processed + 1 } hndTail hfreshTail
        (fun e2 he2 => hfail e2 (List.mem_cons_of_mem e he2))
        (fun e2 he2 => hok e2 (List.mem_cons_of_mem e he2))
      refine ⟨?_, ?_, ?_⟩
      · rw [hrest.1]
        rw [List.filter_cons]
        have : (!(e.id == failId)) = true := by simp [hfe]
        rw [this]
        simp only [if_true, List.length_cons]
        omega
      · rw [hrest.2.1]
        rw [List.filter_cons]
        have : (e.id == failId) = false := by simp [hfe]
        rw [this]
        simp
      · intro e2 he2 hne2
        rcases List.mem_cons.mp he2 with rfl | he2'
        · -- e2 = e was fully processed; its row persists through the rest
          apply isEmailProcessed_mono_loop
          rw [isEmailProcessed_update]
          simp [autoRow]
        · exact hrest.2.2 e2 he2' hne2

/-! ## C5: failure isolation -/

/-- C5: in a batch of N fresh, distinct items where exactly the item with id
`failId` has a deterministically failing commit step and every other item
succeeds end to end, the cycle completes the whole batch and returns
`processed = N - 1`, `errors = 1`, and every non-failing item has a
ProcessedRecord; the single failure never stops the iteration. -/
theorem commit_failure_isolation (env : EnvModel) (beh : String → ItemBehavior)
    (now : String) (s : SysState) (emails : List GmailEmail) (failId : String)
    (henv : env.anthropicApiKeyPresent = false) (hauth : env.claudeAuthenticated = true)
    (hnd : (emails.map GmailEmail.id).Nodup)
    (hfresh : ∀ e ∈ emails, isEmailProcessed s e.id = false ∧ isPendingReview s e.id = false)
    (hfail : ∀ e ∈ emails, e.id = failId →
      (∃ t, (beh e.id).cli = CliOutcome.parsed t ∧ t.task ≠ "") ∧
      (∃ m, (beh e.id).createTaskErr = some m))
    (hok : ∀ e ∈ emails, e.id ≠ failId →
      (∃ t, (beh e.id).cli = CliOutcome.parsed t ∧ t.task ≠ "") ∧
      (beh e.id).createTaskErr = none ∧ (beh e.id).labelEmailErr = none ∧
      (beh e.id).unstarEmailErr = none)
    (hone : ∃ e ∈ emails, e.id = failId) :
    ∃ r : ProcessingResult,
      (processStarredEmails env beh now (FetchOutcome.ok emails) s).2 = Except.ok r ∧
      r.processed = emails.length - 1 ∧ r.errors = 1 ∧
      (∀ e ∈ emails, e.id ≠ failId →
        isEmailProcessed
          (processStarredEmails env beh now (FetchOutcome.ok emails) s).1 e.id = true) := by
  have hcnt1 : (emails.filter (fun e => e.id == failId)).length = 1 := by
    rw [← List.countP_eq_length_filter]
    have hmapc : List.countP (fun e => GmailEmail.id e == failId) emails
        = List.countP (fun x => x == failId) (emails.map GmailEmail.id) := by
      rw [List.countP_map]
      rfl
    rw [hmapc]
    obtain ⟨e0, he0, hid⟩ := hone
    have hm : failId ∈ emails.map GmailEmail.id :=
      hid ▸ List.mem_map_of_mem GmailEmail.id he0
    exact List.count_eq_one_of_mem hnd hm
  have hcnt2 : (emails.filter (fun e => !(e.id == failId))).length = emails.length - 1 := by
    have hsum := length_filter_not_add (fun e => e.id == failId) emails
    omega
  have hloop := runEmailLoop_mixed env beh failId henv hauth emails (setLastRunTime s now)
    { processed := 0, errors := 0, pendingReviews := 0, authRequired := false, authUrl := none }
    hnd (fun e he => hfresh e he) hfail hok
  unfold processStarredEmails
  simp only [henv, Bool.false_eq_true, if_false]
  refine ⟨_, rfl, ?_, ?_, ?_⟩
  · rw [hloop.1, hcnt2]
    simp
  · rw [hloop.2.1, hcnt1]
  · exact hloop.2.2

def behCommitFail : ItemBehavior :=
  { cli := CliOutcome.parsed extractionA,
    createTaskErr := some "Todoist API error: 500 - server error", createdTaskId := "T1",
    labelEmailErr := none, unstarEmailErr := none }

def emailB : GmailEmail :=
  { id := "b2", threadId := "t2", sender := "x@example.com",
    subject := "Pay invoice", body := "b" }

def behMix : String → ItemBehavior := fun g =>
  if g == "b2" then behCommitFail else behSuccess

/-- Witness for C5 with a concrete two-item batch whose second item's commit
fails. -/
theorem commit_failure_isolation_witness :
    ∃ r : ProcessingResult,
      (processStarredEmails envOk behMix "t0"
          (FetchOutcome.ok [emailA, emailB]) initialState).2 = Except.ok r ∧
      r.processed = [emailA, emailB].length - 1 ∧ r.errors = 1 ∧
      (∀ e ∈ [emailA, emailB], e.id ≠ "b2" →
        isEmailProcessed
          (processStarredEmails envOk behMix "t0"
            (FetchOutcome.ok [emailA, emailB]) initialState).1 e.id = true) := by
  refine commit_failure_isolation envOk behMix "t0" initialState [emailA, emailB] "b2"
    rfl rfl (by decide) (by decide) ?_ ?_ ⟨emailB, by decide, rfl⟩
  · intro e he hid
    rcases List.mem_cons.mp he with rfl | he2
    · exact absurd hid (by decide)
    · rcases List.mem_cons.mp he2 with rfl | he3
      · exact ⟨⟨extractionA, rfl, by decide⟩, "Todoist API error: 500 - server error", rfl⟩
      · cases he3
  · intro e he hid
    rcases List.mem_cons.mp he with rfl | he2
    · exact ⟨⟨extractionA, rfl, by decide⟩, rfl, rfl, rfl⟩
    · rcases List.mem_cons.mp he2 with rfl | he3
      · exact absurd rfl hid
      · cases he3

/-! ## A complete case analysis of `processEmail` -/

/-- The pending-review payload `processEmail` enqueues on fallback. -/
def pendingPayload (email : GmailEmail) : PendingReviewData :=
  { gmail_id := email.id
    thread_id := some email.threadId
    sender := some email.sender
    subject := some email.subject
    body := some email.body
    gmail_link := some (gmailLink email.threadId) }

theorem processEmail_fallback (env : EnvModel) (beh : String → ItemBehavior)
    (s : SysState) (email : GmailEmail) (res : ClaudeCliResult)
    (hres : extractTaskFromEmail env (beh email.id).cli = Except.ok res)
    (hsucc : res.success = false) :
    processEmail env beh s email = (addPendingReview s (pendingPayload email), none) := by
  unfold processEmail
  rw [hres]
  simp only [hsucc, Bool.not_false, if_true]
  rfl

/-- The conditions under which `processEmail` throws before touching either
ledger table, independently of the state. -/
def throwsBeforeTables (env : EnvModel) (b : ItemBehavior) : Prop :=
  (∃ m, extractTaskFromEmail env b.cli = Except.error m) ∨
  (∃ res, extractTaskFromEmail env b.cli = Except.ok res ∧ res.success = true ∧
    res.data = none) ∨
  (∃ res d, extractTaskFromEmail env b.cli = Except.ok res ∧ res.success = true ∧
    res.data = some d ∧
    (b.createTaskErr ≠ none ∨
     (b.createTaskErr = none ∧ b.labelEmailErr ≠ none) ∨
     (b.createTaskErr = none ∧ b.labelEmailErr = none ∧ b.unstarEmailErr ≠ none)))

/-- The tracker request built on the success path for extraction data `d`. -/
def pipelineTask (beh : String → ItemBehavior) (email : GmailEmail) (d : TaskExtraction) :
    CreatedTask :=
  { id := (beh email.id).createdTaskId
    content := d.task
    description := String.intercalate "\n"
      ["From: " ++ email.sender, "Subject: " ++ email.subject, "",
       d.notes.getD "", "", "Original email: " ++ gmailLink email.threadId]
    labels := getLabelNames (normalizeLabels d.labels)
    dueString := d.dueString }

/-- The ProcessedRecord row built on the success path for extraction data `d`. -/
def pipelineRow (beh : String → ItemBehavior) (email : GmailEmail) (d : TaskExtraction) :
    ProcessedEmailRow :=
  { gmail_id := email.id
    thread_id := some email.threadId
    sender := some email.sender
    subject := some email.subject
    task_title := some d.task
    todoist_task_id := some (beh email.id).createdTaskId
    labels := some (normalizeLabels d.labels)
    processing_mode := "auto" }

/-- Exhaustive characterisation of one `processEmail` call: it either enqueues
a pending review (extraction non-success), or commits a ProcessedRecord for a
fresh item, or throws leaving both ledger tables unchanged. -/
theorem processEmail_spec (env : EnvModel) (beh : String → ItemBehavior)
    (s : SysState) (email : GmailEmail) :
    ((∃ res, extractTaskFromEmail env (beh email.id).cli = Except.ok res ∧
        res.success = false) ∧
      processEmail env beh s email = (addPendingReview s (pendingPayload email), none)) ∨
    (isEmailProcessed s email.id = false ∧
      (∃ res d, extractTaskFromEmail env (beh email.id).cli = Except.ok res ∧
        res.success = true ∧ res.data = some d ∧
        (beh email.id).createTaskErr = none ∧ (beh email.id).labelEmailErr = none ∧
        (beh email.id).unstarEmailErr = none) ∧
      ∃ ct row, row.gmail_id = email.id ∧
        processEmail env beh s email =
          ({ s with
              createdTasks := ct
              processedEmails := s.processedEmails ++ [row] }, none)) ∨
    (∃ m s1, processEmail env beh s email = (s1, some m) ∧
      s1.processedEmails = s.processedEmails ∧
      s1.pendingReviews = s.pendingReviews ∧
      (throwsBeforeTables env (beh email.id) ∨ isEmailProcessed s email.id = true)) := by
  rcases hex : extractTaskFromEmail env (beh email.id).cli with m | res
  · refine Or.inr (Or.inr ⟨m, s, ?_, rfl, rfl, Or.inl (Or.inl ⟨m, hex⟩)⟩)
    unfold processEmail
    rw [hex]
  · rcases hsu : res.success with _ | _
    · exact Or.inl ⟨⟨res, rfl, hsu⟩, processEmail_fallback env beh s email res hex hsu⟩
    · rcases hdata : res.data with _ | d
      · refine Or.inr (Or.inr ⟨"TypeError: cliResult.data is undefined", s, ?_, rfl, rfl,
          Or.inl (Or.inr (Or.inl ⟨res, hex, hsu, hdata⟩))⟩)
        unfold processEmail
        rw [hex]
        simp only [hsu, hdata, Bool.not_true, Bool.false_eq_true, if_false]
      · rcases hc : (beh email.id).createTaskErr with _ | m
        · rcases hl : (beh email.id).labelEmailErr with _ | m
          · rcases hu : (beh email.id).unstarEmailErr with _ | m
            · -- full pipeline reaches addProcessedEmail
              rcases hproc : isEmailProcessed s email.id with _ | _
              · refine Or.inr (Or.inl ⟨rfl, ⟨res, d, rfl, hsu, hdata, rfl, rfl, rfl⟩,
                  s.createdTasks ++ [pipelineTask beh email d], pipelineRow beh email d,
                  rfl, ?_⟩)
                unfold processEmail
                rw [hex]
                simp only [hsu, hdata, hc, hl, hu, Bool.not_true, Bool.false_eq_true, if_false]
                split
                · rename_i s2 heq
                  have h2 := addProcessedEmail_ok_eq _ _ _ heq
                  subst h2
                  rfl
                · rename_i m heq
                  unfold addProcessedEmail at heq
                  split at heq
                  · rename_i hcond
                    have hc2 : isEmailProcessed s email.id = true := hcond
                    rw [hproc] at hc2
                    cases hc2
                  · cases heq
              · -- duplicate insert throws
                refine Or.inr (Or.inr
                  ⟨"UNIQUE constraint failed: processed_emails.gmail_id",
                    { s with createdTasks := s.createdTasks ++ [pipelineTask beh email d] },
                    ?_, rfl, rfl, Or.inr rfl⟩)
                unfold processEmail
                rw [hex]
                simp only [hsu, hdata, hc, hl, hu, Bool.not_true, Bool.false_eq_true, if_false]
                split
                · rename_i s2 heq
                  unfold addProcessedEmail at heq
                  split at heq
                  · cases heq
                  · rename_i hcond
                    have hc2 : isEmailProcessed s email.id = true := hproc
                    exact absurd hc2 hcond
                · rename_i m heq
                  unfold addProcessedEmail at heq
                  split at heq
                  · injection heq with hmm
                    rw [← hmm]
                    rfl
                  · cases heq
            · refine Or.inr (Or.inr ⟨m,
                { s with createdTasks := s.createdTasks ++ [pipelineTask beh email d] },
                ?_, rfl, rfl,
                Or.inl (Or.inr (Or.inr ⟨res, d, hex, hsu, hdata,
                  Or.inr (Or.inr ⟨hc, hl, by rw [hu]; exact fun hcc => by cases hcc⟩)⟩))⟩)
              unfold processEmail
              rw [hex]
              simp only [hsu, hdata, hc, hl, hu, Bool.not_true, Bool.false_eq_true, if_false]
              rfl
          · refine Or.inr (Or.inr ⟨m,
              { s with createdTasks := s.createdTasks ++ [pipelineTask beh email d] },
              ?_, rfl, rfl,
              Or.inl (Or.inr (Or.inr ⟨res, d, hex, hsu, hdata,
                Or.inr (Or.inl ⟨hc, by rw [hl]; exact fun hcc => by cases hcc⟩)⟩))⟩)
            unfold processEmail
            rw [hex]
            simp only [hsu, hdata, hc, hl, Bool.not_true, Bool.false_eq_true, if_false]
            rfl
        · refine Or.inr (Or.inr ⟨m, s, ?_, rfl, rfl,
            Or.inl (Or.inr (Or.inr ⟨res, d, hex, hsu, hdata,
              Or.inl (by rw [hc]; exact fun hcc => by cases hcc)⟩))⟩)
          unfold processEmail
          rw [hex]
          simp only [hsu, hdata, hc, Bool.not_true, Bool.false_eq_true, if_false]

/-! ## Idempotence machinery (C4) -/

/-- After one cycle has seen an item, one of these state-or-behaviour facts
makes every later cycle leave the ledger tables unchanged for it. -/
def runSettled (env : EnvModel) (beh : String → ItemBehavior) (s : SysState)
    (e : GmailEmail) : Prop :=
  isEmailProcessed s e.id = true ∨
  isPendingReview s e.id = true ∨
  ((∃ res, extractTaskFromEmail env (beh e.id).cli = Except.ok res ∧ res.success = false) ∧
    pendingRowExists s e.id = true) ∨
  throwsBeforeTables env (beh e.id)

theorem runSettled_congr (env : EnvModel) (beh : String → ItemBehavior)
    (s s' : SysState) (e : GmailEmail)
    (hp : s'.processedEmails = s.processedEmails)
    (hq : s'.pendingReviews = s.pendingReviews)
    (h : runSettled env beh s e) : runSettled env beh s' e := by
  unfold runSettled isEmailProcessed isPendingReview pendingRowExists at h ⊢
  rw [hp, hq]
  exact h

theorem processEmail_pendingReviews_shape (env : EnvModel) (beh : String → ItemBehavior)
    (s : SysState) (email : GmailEmail) :
    ∃ tail, (processEmail env beh s email).1.pendingReviews = s.pendingReviews ++ tail := by
  rcases processEmail_spec env beh s email with ⟨_, heq⟩ | ⟨_, _, ct, row, _, heq⟩ |
    ⟨m, s1, heq, _, hq, _⟩
  · rw [heq]
    unfold addPendingReview
    split
    · exact ⟨[], by simp⟩
    · exact ⟨_, rfl⟩
  · rw [heq]
    exact ⟨[], by simp⟩
  · rw [heq]
    exact ⟨[], by simp [hq]⟩

/-- Generic preservation of a state predicate along the per-item loop. -/
theorem runEmailLoop_table_mono (env : EnvModel) (beh : String → ItemBehavior)
    (P : SysState → Prop)
    (hstep : ∀ s email, P s → P (processEmail env beh s email).1)
    (herr : ∀ s e, P s → P (addErrorLog s e)) :
    ∀ (l : List GmailEmail) (s : SysState) (r : ProcessingResult),
    P s → P (runEmailLoop env beh s r l).1 := by
  intro l
  induction l with
  | nil => intro s r h; exact h
  | cons x xs ihm =>
    intro s r h
    simp only [runEmailLoop]
    split
    · exact ihm _ _ h
    · split
      · exact ihm _ _ h
      · split
        · rename_i s1 heq
          apply ihm
          have hm := hstep s x h
          rw [heq] at hm
          exact hm
        · rename_i s1 m heq
          apply ihm
          apply herr
          have hm := hstep s x h
          rw [heq] at hm
          exact hm

theorem isPendingReview_mono_processEmail (env : EnvModel) (beh : String → ItemBehavior)
    (s : SysState) (email : GmailEmail) (g : String) (h : isPendingReview s g = true) :
    isPendingReview (processEmail env beh s email).1 g = true := by
  obtain ⟨tail, htail⟩ := processEmail_pendingReviews_shape env beh s email
  unfold isPendingReview at h ⊢
  rw [htail, List.any_append, h]
  rfl

theorem pendingRowExists_mono_processEmail (env : EnvModel) (beh : String → ItemBehavior)
    (s : SysState) (email : GmailEmail) (g : String) (h : pendingRowExists s g = true) :
    pendingRowExists (processEmail env beh s email).1 g = true := by
  obtain ⟨tail, htail⟩ := processEmail_pendingReviews_shape env beh s email
  unfold pendingRowExists at h ⊢
  rw [htail, List.any_append, h]
  rfl

theorem isPendingReview_mono_loop (env : EnvModel) (beh : String → ItemBehavior)
    (l : List GmailEmail) (s : SysState) (r : ProcessingResult) (g : String)
    (h : isPendingReview s g = true) :
    isPendingReview (runEmailLoop env beh s r l).1 g = true :=
  runEmailLoop_table_mono env beh (fun s2 => isPendingReview s2 g = true)
    (fun s2 email hh => isPendingReview_mono_processEmail env beh s2 email g hh)
    (fun _ _ hh => hh) l s r h

theorem pendingRowExists_mono_loop (env : EnvModel) (beh : String → ItemBehavior)
    (l : List GmailEmail) (s : SysState) (r : ProcessingResult) (g : String)
    (h : pendingRowExists s g = true) :
    pendingRowExists (runEmailLoop env beh s r l).1 g = true :=
  runEmailLoop_table_mono env beh (fun s2 => pendingRowExists s2 g = true)
    (fun s2 email hh => pendingRowExists_mono_processEmail env beh s2 email g hh)
    (fun _ _ hh => hh) l s r h

/-- After a cycle's per-item loop, every item of the batch is settled in the
resulting state. -/
theorem runEmailLoop_establishes (env : EnvModel) (beh : String → ItemBehavior) :
    ∀ (l : List GmailEmail) (s : SysState) (r : ProcessingResult),
    ∀ e ∈ l, runSettled env beh (runEmailLoop env beh s r l).1 e := by
  intro l
  induction l with
  | nil => intro s r e he; cases he
  | cons x rest ih =>
    intro s r e he
    simp only [runEmailLoop]
    split
    · rename_i h1
      rcases List.mem_cons.mp he with rfl | he2
      · exact Or.inl (isEmailProcessed_mono_loop env beh rest s r e.id h1)
      · exact ih s r e he2
    · split
      · rename_i h1 h2
        rcases List.mem_cons.mp he with rfl | he2
        · exact Or.inr (Or.inl (isPendingReview_mono_loop env beh rest s r e.id h2))
        · exact ih s r e he2
      · rename_i h1 h2
        rcases processEmail_spec env beh s x with ⟨hfb, heq⟩ |
          ⟨hfr, hbeh, ct, row, hrow, heq⟩ | ⟨m, s1, heq, hp, hq, hcase⟩
        · rw [heq]
          rcases List.mem_cons.mp he with rfl | he2
          · refine Or.inr (Or.inr (Or.inl ⟨hfb, ?_⟩))
            exact pendingRowExists_mono_loop env beh rest _ _ e.id
              (pendingRowExists_after_add s (pendingPayload e))
          · exact ih _ _ e he2
        · rw [heq]
          rcases List.mem_cons.mp he with rfl | he2
          · refine Or.inl ?_
            have hstart : isEmailProcessed
                { s with
                  createdTasks := ct
                  processedEmails := s.processedEmails ++ [row] } e.id = true := by
              rw [isEmailProcessed_update, hrow]
              simp
            exact isEmailProcessed_mono_loop env beh rest _ _ e.id hstart
          · exact ih _ _ e he2
        · rw [heq]
          rcases List.mem_cons.mp he with rfl | he2
          · rcases hcase with hthrow | hpro
            · exact Or.inr (Or.inr (Or.inr hthrow))
            · exact absurd hpro h1
          · exact ih _ _ e he2

/-- A cycle's per-item loop run over settled items leaves both ledger tables
unchanged. -/
theorem runEmailLoop_keeps_tables (env : EnvModel) (beh : String → ItemBehavior) :
    ∀ (l : List GmailEmail) (s : SysState) (r : ProcessingResult),
    (∀ e ∈ l, runSettled env beh s e) →
    (runEmailLoop env beh s r l).1.processedEmails = s.processedEmails ∧
    (runEmailLoop env beh s r l).1.pendingReviews = s.pendingReviews := by
  intro l
  induction l with
  | nil => intro s r _; exact ⟨rfl, rfl⟩
  | cons x rest ih =>
    intro s r hall
    have htail : ∀ e ∈ rest, runSettled env beh s e :=
      fun e he => hall e (List.mem_cons_of_mem x he)
    simp only [runEmailLoop]
    split
    · exact ih s r htail
    · split
      · exact ih s r htail
      · rename_i h1 h2
        rcases hall x (List.mem_cons_self x rest) with hp | hq | ⟨hfb, hrow⟩ | hthrow
        · exact absurd hp h1
        · exact absurd hq h2
        · obtain ⟨res, hres, hsucc⟩ := hfb
          rw [processEmail_fallback env beh s x res hres hsucc]
          rw [addPendingReview_noop s (pendingPayload x) hrow]
          exact ih s _ htail
        · rcases processEmail_spec env beh s x with ⟨⟨res, hres, hsucc⟩, heq⟩ |
            ⟨hfr, hbeh, ct, row, hrow2, heq⟩ | ⟨m, s1, heq, hpp, hqq, _⟩
          · exfalso
            rcases hthrow with ⟨m2, hm2⟩ | ⟨res2, hres2, hsu2, _⟩ | ⟨res2, d2, hres2, hsu2, _, _⟩
            · rw [hm2] at hres
              cases hres
            · rw [hres2] at hres
              injection hres with hee
              rw [← hee, hsu2] at hsucc
              cases hsucc
            · rw [hres2] at hres
              injection hres with hee
              rw [← hee, hsu2] at hsucc
              cases hsucc
          · exfalso
            obtain ⟨res, d, hres, hsu, hdata, hc, hl, hu⟩ := hbeh
            rcases hthrow with ⟨m2, hm2⟩ | ⟨res2, hres2, hsu2, hdata2⟩ |
              ⟨res2, d2, hres2, hsu2, hdata2, herr⟩
            · rw [hm2] at hres
              cases hres
            · rw [hres2] at hres
              injection hres with hee
              rw [hee] at hdata2
              rw [hdata] at hdata2
              cases hdata2
            · rcases herr with hcc | ⟨_, hln⟩ | ⟨_, _, hun⟩
              · exact hcc hc
              · exact hln hl
              · exact hun hu
          · rw [heq]
            have hall2 : ∀ e ∈ rest, runSettled env beh
                (addErrorLog s1
                  { error_type := "PROCESSING_ERROR", message := m, email_id := some x.id })
                e :=
              fun e he => runSettled_congr env beh s _ e hpp hqq (htail e he)
            have hih := ih
              (addErrorLog s1
                { error_type := "PROCESSING_ERROR", message := m, email_id := some x.id })
              { r with errors := r.errors + 1 } hall2
            exact ⟨hih.1.trans hpp, hih.2.trans hqq⟩

/-- Well-formedness of the ledger: at most one row per gmail id in each of the
two dedup tables (the SQLite `UNIQUE` constraints). -/
def wfState (s : SysState) : Prop :=
  (s.processedEmails.map (fun r => r.gmail_id)).Nodup ∧
  (s.pendingReviews.map (fun r => r.gmail_id)).Nodup

theorem nodup_map_append_one {A : Type} (l : List A) (x : A) (f : A → String)
    (h : (l.map f).Nodup) (hx : ∀ y ∈ l, f y ≠ f x) : ((l ++ [x]).map f).Nodup := by
  rw [List.map_append, List.nodup_append]
  refine ⟨h, List.nodup_singleton _, ?_⟩
  intro a ha hmem
  simp only [List.map_cons, List.map_nil, List.mem_singleton] at hmem
  subst hmem
  rw [List.mem_map] at ha
  obtain ⟨rr, hrr, hrra⟩ := ha
  exact hx rr hrr hrra

theorem wf_addPendingReview (s : SysState) (d : PendingReviewData) (h : wfState s) :
    wfState (addPendingReview s d) := by
  unfold addPendingReview
  split
  · exact h
  · rename_i hnew
    have hx : ∀ y ∈ s.pendingReviews, y.gmail_id ≠ d.gmail_id := by
      intro y hy hc
      apply hnew
      unfold pendingRowExists
      rw [List.any_eq_true]
      refine ⟨y, hy, ?_⟩
      rw [hc]
      simp
    exact ⟨h.1, nodup_map_append_one s.pendingReviews _ (fun r => r.gmail_id) h.2
      (fun y hy => hx y hy)⟩

theorem wf_processEmail (env : EnvModel) (beh : String → ItemBehavior)
    (s : SysState) (email : GmailEmail) (h : wfState s) :
    wfState (processEmail env beh s email).1 := by
  rcases processEmail_spec env beh s email with ⟨_, heq⟩ | ⟨hfr, _, ct, row, hrow, heq⟩ |
    ⟨m, s1, heq, hp, hq, _⟩
  · rw [heq]
    exact wf_addPendingReview s (pendingPayload email) h
  · rw [heq]
    have hx : ∀ y ∈ s.processedEmails, y.gmail_id ≠ row.gmail_id := by
      intro y hy hc
      unfold isEmailProcessed at hfr
      have hany : s.processedEmails.any (fun r2 => r2.gmail_id == email.id) = true := by
        rw [List.any_eq_true]
        refine ⟨y, hy, ?_⟩
        rw [hc, hrow]
        simp
      rw [hfr] at hany
      cases hany
    exact ⟨nodup_map_append_one s.processedEmails row (fun r => r.gmail_id) h.1
      (fun y hy => hx y hy), h.2⟩
  · rw [heq]
    unfold wfState
    rw [hp, hq]
    exact h

theorem wf_runEmailLoop (env : EnvModel) (beh : String → ItemBehavior)
    (l : List GmailEmail) (s : SysState) (r : ProcessingResult) (h : wfState s) :
    wfState (runEmailLoop env beh s r l).1 :=
  runEmailLoop_table_mono env beh wfState
    (fun s2 email hh => wf_processEmail env beh s2 email hh)
    (fun _ _ hh => hh) l s r h

/-! ## C4: idempotence of the processing cycle -/

/-- C4: running the cycle twice over the same fetched item set with no ledger
changes in between adds nothing in the second run — the processed-emails and
pending-reviews tables after the second run equal the tables after the first —
and the tables keep at most one row per distinct item id (so each item ends
with at most one ProcessedRecord and at most one PendingReview, never two);
items already processed or pending at the start of an iteration are skipped. -/
theorem cycle_idempotent (env : EnvModel) (beh : String → ItemBehavior)
    (now1 now2 : String) (emails : List GmailEmail) (s0 : SysState) (hwf : wfState s0) :
    ((processStarredEmails env beh now2 (FetchOutcome.ok emails)
        (processStarredEmails env beh now1 (FetchOutcome.ok emails) s0).1).1.processedEmails
      = (processStarredEmails env beh now1 (FetchOutcome.ok emails) s0).1.processedEmails) ∧
    ((processStarredEmails env beh now2 (FetchOutcome.ok emails)
        (processStarredEmails env beh now1 (FetchOutcome.ok emails) s0).1).1.pendingReviews
      = (processStarredEmails env beh now1 (FetchOutcome.ok emails) s0).1.pendingReviews) ∧
    wfState (processStarredEmails env beh now1 (FetchOutcome.ok emails) s0).1 := by
  rcases henv : env.anthropicApiKeyPresent with _ | _
  · unfold processStarredEmails
    simp only [henv, Bool.false_eq_true, if_false]
    have hsettled : ∀ e ∈ emails, runSettled env beh
        (setLastRunTime (runEmailLoop env beh (setLastRunTime s0 now1)
          { processed := 0, errors := 0, pendingReviews := 0, authRequired := false,
            authUrl := none } emails).1 now2) e := by
      intro e he
      exact runSettled_congr env beh
        (runEmailLoop env beh (setLastRunTime s0 now1)
          { processed := 0, errors := 0, pendingReviews := 0, authRequired := false,
            authUrl := none } emails).1 _ e rfl rfl
        (runEmailLoop_establishes env beh emails (setLastRunTime s0 now1)
          { processed := 0, errors := 0, pendingReviews := 0, authRequired := false,
            authUrl := none } e he)
    have hkeep := runEmailLoop_keeps_tables env beh emails
      (setLastRunTime (runEmailLoop env beh (setLastRunTime s0 now1)
        { processed := 0, errors := 0, pendingReviews := 0, authRequired := false,
          authUrl := none } emails).1 now2)
      { processed := 0, errors := 0, pendingReviews := 0, authRequired := false,
        authUrl := none } hsettled
    exact ⟨hkeep.1, hkeep.2, wf_runEmailLoop env beh emails (setLastRunTime s0 now1)
      { processed := 0, errors := 0, pendingReviews := 0, authRequired := false,
        authUrl := none } hwf⟩
  · unfold processStarredEmails
    simp only [henv, eq_self_iff_true, if_true]
    exact ⟨rfl, rfl, hwf⟩

/-- Witness for C4 at a concrete state and batch. -/
theorem cycle_idempotent_witness :
    wfState initialState ∧
    (((processStarredEmails envOk behMix "t2" (FetchOutcome.ok [emailA, emailB])
        (processStarredEmails envOk behMix "t1" (FetchOutcome.ok [emailA, emailB])
          initialState).1).1.processedEmails
      = (processStarredEmails envOk behMix "t1" (FetchOutcome.ok [emailA, emailB])
          initialState).1.processedEmails) ∧
    ((processStarredEmails envOk behMix "t2" (FetchOutcome.ok [emailA, emailB])
        (processStarredEmails envOk behMix "t1" (FetchOutcome.ok [emailA, emailB])
          initialState).1).1.pendingReviews
      = (processStarredEmails envOk behMix "t1" (FetchOutcome.ok [emailA, emailB])
          initialState).1.pendingReviews) ∧
    wfState (processStarredEmails envOk behMix "t1" (FetchOutcome.ok [emailA, emailB])
        initialState).1) :=
  ⟨⟨List.nodup_nil, List.nodup_nil⟩,
    cycle_idempotent envOk behMix "t1" "t2" [emailA, emailB] initialState
      ⟨List.nodup_nil, List.nodup_nil⟩⟩

/-! ## Mutual exclusion machinery (C6) -/

/-- No item id is simultaneously recorded as processed and as pending review. -/
def mutualExclusion (s : SysState) : Prop :=
  ∀ g : String, ¬(isEmailProcessed s g = true ∧ isPendingReview s g = true)

theorem bool_eq_false {b : Bool} (h : ¬(b = true)) : b = false := by
  cases b
  · rfl
  · exact absurd rfl h

theorem mutualExclusion_congr (s s' : SysState)
    (hp : s'.processedEmails = s.processedEmails)
    (hq : s'.pendingReviews = s.pendingReviews)
    (h : mutualExclusion s) : mutualExclusion s' := by
  unfold mutualExclusion isEmailProcessed isPendingReview at h ⊢
  rw [hp, hq]
  exact h

theorem me_addPendingReview (s : SysState) (d : PendingReviewData)
    (hme : mutualExclusion s) (hfresh : isEmailProcessed s d.gmail_id = false) :
    mutualExclusion (addPendingReview s d) := by
  unfold addPendingReview
  split
  · exact hme
  · intro g hcontra
    obtain ⟨hp, hq⟩ := hcontra
    have hp2 : isEmailProcessed s g = true := hp
    unfold isPendingReview at hq
    rw [List.any_append, Bool.or_eq_true] at hq
    rcases hq with hq1 | hq2
    · exact hme g ⟨hp2, hq1⟩
    · simp only [List.any_cons, List.any_nil, Bool.or_false, Bool.and_eq_true,
        beq_iff_eq] at hq2
      rw [hq2.1] at hfresh
      rw [hp2] at hfresh
      cases hfresh

theorem me_processEmail (env : EnvModel) (beh : String → ItemBehavior)
    (s : SysState) (email : GmailEmail) (hme : mutualExclusion s)
    (h1 : isEmailProcessed s email.id = false) (h2 : isPendingReview s email.id = false) :
    mutualExclusion (processEmail env beh s email).1 := by
  rcases processEmail_spec env beh s email with ⟨_, heq⟩ | ⟨hfr, _, ct, row, hrow, heq⟩ |
    ⟨m, s1, heq, hp, hq, _⟩
  · rw [heq]
    exact me_addPendingReview s (pendingPayload email) hme h1
  · rw [heq]
    intro g hcontra
    obtain ⟨hpg, hqg⟩ := hcontra
    have hqg2 : isPendingReview s g = true := hqg
    rw [isEmailProcessed_update, Bool.or_eq_true] at hpg
    rcases hpg with hpg1 | hpg2
    · exact hme g ⟨hpg1, hqg2⟩
    · rw [hrow] at hpg2
      have hge : email.id = g := eq_of_beq hpg2
      rw [← hge] at hqg2
      rw [h2] at hqg2
      cases hqg2
  · rw [heq]
    exact mutualExclusion_congr s s1 hp hq hme

theorem me_runEmailLoop (env : EnvModel) (beh : String → ItemBehavior) :
    ∀ (l : List GmailEmail) (s : SysState) (r : ProcessingResult),
    mutualExclusion s → mutualExclusion (runEmailLoop env beh s r l).1 := by
  intro l
  induction l with
  | nil => intro s r h; exact h
  | cons x xs ihm =>
    intro s r h
    simp only [runEmailLoop]
    split
    · exact ihm _ _ h
    · split
      · exact ihm _ _ h
      · rename_i h1 h2
        have h1f := bool_eq_false h1
        have h2f := bool_eq_false h2
        split
        · rename_i s1 heq
          apply ihm
          have hm := me_processEmail env beh s x h h1f h2f
          rw [heq] at hm
          exact hm
        · rename_i s1 m heq
          apply ihm
          have hm := me_processEmail env beh s x h h1f h2f
          rw [heq] at hm
          exact hm

theorem me_cycle (env : EnvModel) (beh : String → ItemBehavior) (now : String)
    (fetch : FetchOutcome) (s : SysState) (h : mutualExclusion s) :
    mutualExclusion (processStarredEmails env beh now fetch s).1 := by
  unfold processStarredEmails
  rcases henv : env.anthropicApiKeyPresent with _ | _
  · simp only [henv, Bool.false_eq_true, if_false]
    cases fetch with
    | authError url => exact h
    | fetchError msg => exact h
    | ok emails => exact me_runEmailLoop env beh emails _ _ h
  · simp only [henv, eq_self_iff_true, if_true]
    exact h

theorem wf_cycle (env : EnvModel) (beh : String → ItemBehavior) (now : String)
    (fetch : FetchOutcome) (s : SysState) (h : wfState s) :
    wfState (processStarredEmails env beh now fetch s).1 := by
  unfold processStarredEmails
  rcases henv : env.anthropicApiKeyPresent with _ | _
  · simp only [henv, Bool.false_eq_true, if_false]
    cases fetch with
    | authError url => exact h
    | fetchError msg => exact h
    | ok emails => exact wf_runEmailLoop env beh emails _ _ h
  · simp only [henv, eq_self_iff_true, if_true]
    exact h

/-! ## Manual completion and skip: well-formedness and mutual exclusion -/

theorem update_status_gids (s : SysState) (rid : Nat) (st : String) :
    (updatePendingReviewStatus s rid st).pendingReviews.map (fun r => r.gmail_id)
      = s.pendingReviews.map (fun r => r.gmail_id) := by
  unfold updatePendingReviewStatus
  show (s.pendingReviews.map _).map _ = _
  rw [List.map_map]
  apply List.map_congr_left
  intro a _
  show (fun r => r.gmail_id) (if a.id == rid then { a with status := st } else a) = a.gmail_id
  split
  · rfl
  · rfl

theorem isPendingReview_update_to_nonpending (s : SysState) (rid : Nat) (st g : String)
    (hst : (st == "pending") = false)
    (h : isPendingReview (updatePendingReviewStatus s rid st) g = true) :
    isPendingReview s g = true := by
  unfold isPendingReview updatePendingReviewStatus at h
  rw [List.any_eq_true] at h
  obtain ⟨row2, hmem2, hcond2⟩ := h
  rw [List.mem_map] at hmem2
  obtain ⟨row, hrow, hfeq⟩ := hmem2
  unfold isPendingReview
  rw [List.any_eq_true]
  refine ⟨row, hrow, ?_⟩
  by_cases hid : (row.id == rid) = true
  · rw [if_pos hid] at hfeq
    rw [← hfeq] at hcond2
    rw [Bool.and_eq_true] at hcond2
    have := hcond2.2
    rw [hst] at this
    cases this
  · rw [if_neg hid] at hfeq
    rw [hfeq]
    exact hcond2

/-- After a manual completion flips the fetched row to `completed`, no
pending-status row remains for that gmail id (the `UNIQUE` constraint makes
the fetched row the only row with that id). -/
theorem completed_row_not_pending (s : SysState) (rid : Nat) (pending : PendingReviewRow)
    (hwf : (s.pendingReviews.map (fun r => r.gmail_id)).Nodup)
    (hget : getPendingReviewById s rid = some pending) :
    isPendingReview (updatePendingReviewStatus s rid "completed") pending.gmail_id = false := by
  unfold getPendingReviewById at hget
  have hmemP : pending ∈ s.pendingReviews := List.mem_of_find?_eq_some hget
  have hidP0 := List.find?_some hget
  have hidP : (pending.id == rid) = true := hidP0
  cases hb : isPendingReview (updatePendingReviewStatus s rid "completed") pending.gmail_id with
  | false => rfl
  | true =>
    exfalso
    unfold isPendingReview updatePendingReviewStatus at hb
    rw [List.any_eq_true] at hb
    obtain ⟨row2, hmem2, hcond2⟩ := hb
    rw [List.mem_map] at hmem2
    obtain ⟨row, hrow, hfeq⟩ := hmem2
    rw [Bool.and_eq_true] at hcond2
    by_cases hid : (row.id == rid) = true
    · rw [if_pos hid] at hfeq
      rw [← hfeq] at hcond2
      have := hcond2.2
      cases this
    · rw [if_neg hid] at hfeq
      rw [← hfeq] at hcond2
      have hgid : row.gmail_id = pending.gmail_id := eq_of_beq hcond2.1
      have hrp : row = pending := List.inj_on_of_nodup_map hwf hrow hmemP hgid
      rw [hrp] at hid
      exact hid hidP

theorem nodup_pr_update (s : SysState) (rid : Nat) (st : String)
    (h : (s.pendingReviews.map (fun r => r.gmail_id)).Nodup) :
    ((updatePendingReviewStatus s rid st).pendingReviews.map
      (fun r => r.gmail_id)).Nodup := by
  rw [update_status_gids]
  exact h

theorem wf_processManualTask (mb : ManualBehavior) (s : SysState) (rid : Nat)
    (td : ManualTaskData) (h : wfState s) : wfState (processManualTask mb s rid td).1 := by
  unfold processManualTask
  split
  · exact h
  · rename_i pending hget
    split
    · exact h
    · dsimp only
      split
      · rename_i s3 heq3
        unfold addProcessedEmail at heq3
        split at heq3
        · cases heq3
        · rename_i hcond
          injection heq3 with h3
          rw [← h3]
          have hfr : isEmailProcessed s pending.gmail_id = false := bool_eq_false hcond
          refine ⟨?_, ?_⟩
          · have hx : ∀ y ∈ s.processedEmails, y.gmail_id ≠ pending.gmail_id := by
              intro y hy hc
              unfold isEmailProcessed at hfr
              have hany : s.processedEmails.any
                  (fun r2 => r2.gmail_id == pending.gmail_id) = true := by
                rw [List.any_eq_true]
                refine ⟨y, hy, ?_⟩
                rw [hc]
                simp
              rw [hfr] at hany
              cases hany
            exact nodup_map_append_one s.processedEmails
              { gmail_id := pending.gmail_id, thread_id := pending.thread_id,
                sender := pending.sender, subject := pending.subject,
                task_title := some td.task, todoist_task_id := some mb.createdTaskId,
                labels := some (normalizeLabels td.labels), processing_mode := "manual" }
              (fun r => r.gmail_id) h.1 (fun y hy => hx y hy)
          · exact nodup_pr_update _ rid "completed" h.2
      · rename_i m heq3
        exact ⟨h.1, nodup_pr_update _ rid "completed" h.2⟩

theorem me_processManualTask (mb : ManualBehavior) (s : SysState) (rid : Nat)
    (td : ManualTaskData) (hme : mutualExclusion s) (hwf : wfState s) :
    mutualExclusion (processManualTask mb s rid td).1 := by
  unfold processManualTask
  split
  · exact hme
  · rename_i pending hget
    split
    · exact hme
    · have hme2 : mutualExclusion (updatePendingReviewStatus
          { s with createdTasks := s.createdTasks ++
            [{ id := mb.createdTaskId, content := td.task,
               description := String.intercalate "\n"
                 ["From: " ++ jsTemplate pending.sender,
                  "Subject: " ++ jsTemplate pending.subject, "",
                  td.notes.getD "", "",
                  "Original email: " ++ jsTemplate pending.gmail_link],
               labels := getLabelNames (normalizeLabels td.labels),
               dueString := td.dueString }] } rid "completed") := by
        intro g hcontra
        obtain ⟨hp, hq⟩ := hcontra
        have hp2 : isEmailProcessed s g = true := hp
        have hq2 : isPendingReview s g = true :=
          isPendingReview_update_to_nonpending _ rid "completed" g (by decide) hq
        exact hme g ⟨hp2, hq2⟩
      dsimp only
      split
      · rename_i s3 heq3
        unfold addProcessedEmail at heq3
        split at heq3
        · cases heq3
        · rename_i hcond
          injection heq3 with h3
          rw [← h3]
          intro g hcontra
          obtain ⟨hp, hq⟩ := hcontra
          rw [isEmailProcessed_update, Bool.or_eq_true] at hp
          rcases hp with hp1 | hp1
          · exact hme2 g ⟨hp1, hq⟩
          · have hge : pending.gmail_id = g := eq_of_beq hp1
            rw [← hge] at hq
            have hnp := completed_row_not_pending s rid pending hwf.2 hget
            have hq2 : isPendingReview
                (updatePendingReviewStatus s rid "completed") pending.gmail_id = true := hq
            rw [hnp] at hq2
            cases hq2
      · rename_i m heq3
        exact hme2

theorem wf_skipPendingReview (s : SysState) (rid : Nat) (h : wfState s) :
    wfState (skipPendingReview s rid) := by
  refine ⟨h.1, ?_⟩
  show ((updatePendingReviewStatus s rid "skipped").pendingReviews.map
    (fun r => r.gmail_id)).Nodup
  rw [update_status_gids]
  exact h.2

theorem me_skipPendingReview (s : SysState) (rid : Nat) (h : mutualExclusion s) :
    mutualExclusion (skipPendingReview s rid) := by
  intro g hcontra
  obtain ⟨hp, hq⟩ := hcontra
  have hp2 : isEmailProcessed s g = true := hp
  have hq2 : isPendingReview s g = true :=
    isPendingReview_update_to_nonpending s rid "skipped" g (by decide) hq
  exact h g ⟨hp2, hq2⟩

/-! ## C6: reachable-state invariant -/

/-- `setAutomationRunning` (`client.ts`). -/
def setAutomationRunning (s : SysState) (running : Bool) : SysState :=
  setAutomationState s "running" (if running then "true" else "false")

/-- The states reachable through the core's operations: database
initialisation, processing cycles, manual completion, skipping a review, and
the automation-state toggles. -/
inductive Reachable : SysState → Prop where
  | init : Reachable initialState
  | cycle (s : SysState) (env : EnvModel) (beh : String → ItemBehavior) (now : String)
      (fetch : FetchOutcome) : Reachable s →
      Reachable (processStarredEmails env beh now fetch s).1
  | manual (s : SysState) (mb : ManualBehavior) (rid : Nat) (td : ManualTaskData) :
      Reachable s → Reachable (processManualTask mb s rid td).1
  | skipReview (s : SysState) (rid : Nat) : Reachable s → Reachable (skipPendingReview s rid)
  | setRunning (s : SysState) (b : Bool) : Reachable s → Reachable (setAutomationRunning s b)
  | setLastRun (s : SysState) (t : String) : Reachable s → Reachable (setLastRunTime s t)

theorem reachable_inv (s : SysState) (h : Reachable s) : wfState s ∧ mutualExclusion s := by
  induction h with
  | init =>
    refine ⟨⟨List.nodup_nil, List.nodup_nil⟩, ?_⟩
    intro g hcontra
    obtain ⟨hp, _⟩ := hcontra
    cases hp
  | cycle s env beh now fetch _ ih =>
    exact ⟨wf_cycle env beh now fetch s ih.1, me_cycle env beh now fetch s ih.2⟩
  | manual s mb rid td _ ih =>
    exact ⟨wf_processManualTask mb s rid td ih.1, me_processManualTask mb s rid td ih.2 ih.1⟩
  | skipReview s rid _ ih =>
    exact ⟨wf_skipPendingReview s rid ih.1, me_skipPendingReview s rid ih.2⟩
  | setRunning s b _ ih => exact ih
  | setLastRun s t _ ih => exact ih

/-- C6: in every state reachable through the core's operations, no item id is
simultaneously recorded as processed (`isEmailProcessed`) and as a pending
review (`isPendingReview` with status `pending`); manual completion flips the
review row to `completed` before inserting the ProcessedRecord, preserving the
invariant. -/
theorem ledger_mutual_exclusion (s : SysState) (h : Reachable s) (g : String) :
    ¬(isEmailProcessed s g = true ∧ isPendingReview s g = true) :=
  (reachable_inv s h).2 g

/-- Witness for C6 at the state reached by one concrete processing cycle. -/
theorem ledger_mutual_exclusion_witness :
    ¬(isEmailProcessed (processStarredEmails envOk behMix "t1"
        (FetchOutcome.ok [emailA, emailB]) initialState).1 "a1" = true ∧
      isPendingReview (processStarredEmails envOk behMix "t1"
        (FetchOutcome.ok [emailA, emailB]) initialState).1 "a1" = true) :=
  ledger_mutual_exclusion _
    (Reachable.cycle initialState envOk behMix "t1"
      (FetchOutcome.ok [emailA, emailB]) Reachable.init) "a1"

end ShootingStar
